import Mathlib

/-! # todo-app: image cache, change events and the store connector

A shallow embedding of the three Go services of the repository
(`image-service`, `todo-service`, `broadcaster-service`) together with the
properties their specification states about them.

Conventions of the embedding:

* an instant (`time.Time`) is an integer count of nanoseconds; a
  `time.Duration` is a signed 64-bit count of nanoseconds;
* a Go `string` / `[]byte` whose content matters is a list of byte values;
  texts that only name something (literals of the source, paths, URLs of the
  image service, error messages) are kept as strings;
* everything a function learns from outside the process (the clock, the
  network, the file system, the database, the message bus) is an explicit
  argument, and everything it does to the outside is returned, in program
  order, as a list of effects.
-/

/-- Equality of Go-style results (`value, err`) is decidable when both sides are. -/
instance decEqExcept {ε α : Type} [DecidableEq ε] [DecidableEq α] :
    DecidableEq (Except ε α) := fun a b =>
  match a, b with
  | .ok x, .ok y =>
    if h : x = y then isTrue (by rw [h]) else isFalse (fun e => h (by cases e; rfl))
  | .error x, .error y =>
    if h : x = y then isTrue (by rw [h]) else isFalse (fun e => h (by cases e; rfl))
  | .ok _, .error _ => isFalse (fun e => by cases e)
  | .error _, .ok _ => isFalse (fun e => by cases e)

namespace Go

/-! ## The parts of the Go standard library the services call

Models of `unicode/utf8`, `strconv` and `encoding/json` as documented; they
are called by the repository's code and are not part of it. Multiplications and divisions by
powers of two stand for the shifts and masks of the originals. -/

/-- `utf8.RuneError`, the replacement character U+FFFD. -/
def runeError : Nat := 0xFFFD

/-- `utf8.AppendRune` / `utf8.EncodeRune`: the UTF-8 bytes of a rune; a
surrogate or a value above U+10FFFF is written as U+FFFD. -/
def encodeRune (r : Nat) : List Nat :=
  if r ≤ 0x7F then [r]
  else if r ≤ 0x7FF then [0xC0 + r / 64, 0x80 + r % 64]
  else if 0x10FFFF < r ∨ (0xD800 ≤ r ∧ r ≤ 0xDFFF) then [0xEF, 0xBF, 0xBD]
  else if r ≤ 0xFFFF then [0xE0 + r / 4096, 0x80 + r / 64 % 64, 0x80 + r % 64]
  else [0xF0 + r / 262144, 0x80 + r / 4096 % 64, 0x80 + r / 64 % 64, 0x80 + r % 64]

/-- `utf8.DecodeRune` / `utf8.DecodeRuneInString`: the first rune of a byte
sequence and its width; an invalid or short encoding yields `(RuneError, 1)`,
an empty input `(RuneError, 0)`. -/
def decodeRune (s : List Nat) : Nat × Nat :=
  match s with
  | [] => (runeError, 0)
  | s0 :: rest =>
    if s0 < 0x80 then (s0, 1)
    else if s0 < 0xC2 ∨ 0xF4 < s0 then (runeError, 1)
    else
      let sz := if s0 < 0xE0 then 2 else if s0 < 0xF0 then 3 else 4
      let lo := if s0 = 0xE0 then 0xA0 else if s0 = 0xF0 then 0x90 else 0x80
      let hi := if s0 = 0xED then 0x9F else if s0 = 0xF4 then 0x8F else 0xBF
      if s.length < sz then (runeError, 1)
      else
        match rest with
        | [] => (runeError, 1)
        | s1 :: rest1 =>
          if s1 < lo ∨ hi < s1 then (runeError, 1)
          else if sz ≤ 2 then (s0 % 32 * 64 + s1 % 64, 2)
          else
            match rest1 with
            | [] => (runeError, 1)
            | s2 :: rest2 =>
              if s2 < 0x80 ∨ 0xBF < s2 then (runeError, 1)
              else if sz ≤ 3 then (s0 % 16 * 4096 + s1 % 64 * 64 + s2 % 64, 3)
              else
                match rest2 with
                | [] => (runeError, 1)
                | s3 :: _ =>
                  if s3 < 0x80 ∨ 0xBF < s3 then (runeError, 1)
                  else (s0 % 8 * 262144 + s1 % 64 * 4096 + s2 % 64 * 64 + s3 % 64, 4)

/-- The bytes of a string literal of the source (its UTF-8 encoding). -/
def bytes (s : String) : List Nat :=
  s.data.flatMap (fun c => encodeRune c.toNat)

/-- The two kinds of `*strconv.NumError`: `ErrSyntax` and `ErrRange`. -/
inductive NumError where
  | invalid
  | outOfRange
deriving DecidableEq

/-- Largest `uint64`. -/
def maxUint64 : Nat := 18446744073709551615

/-- The digit loop of `strconv.ParseUint(s, 10, 64)`: a byte that is not a
decimal digit is a syntax error, a value above the largest `uint64` a range
error. -/
def parseUintLoop : List Nat → Nat → Except NumError Nat
  | [], n => .ok n
  | c :: cs, n =>
    if 48 ≤ c ∧ c ≤ 57 then
      if maxUint64 < n * 10 + (c - 48) then .error .outOfRange
      else parseUintLoop cs (n * 10 + (c - 48))
    else .error .invalid

/-- `strconv.ParseInt(s, 10, 64)`: optional sign, decimal digits, range check. -/
def ParseInt (s : List Nat) : Except NumError Int :=
  match s with
  | [] => .error .invalid
  | c :: cs =>
    let digits := if c = 43 ∨ c = 45 then cs else s
    if digits = [] then .error .invalid
    else
      match parseUintLoop digits 0 with
      | .error e => .error e
      | .ok un =>
        if c = 45 then
          if 9223372036854775808 < un then .error .outOfRange else .ok (-(un : Int))
        else
          if 9223372036854775808 ≤ un then .error .outOfRange else .ok (un : Int)

/-- `strconv.Atoi` with a 64-bit `int`; its fast path for short inputs
computes the same result as `ParseInt(s, 10, 0)`. -/
def Atoi (s : List Nat) : Except NumError Int := ParseInt s

/-- Conversion of an integer to `int64` (two's complement wrap-around), as
performed by Go's arithmetic on `int64` operands. -/
def wrapInt64 (x : Int) : Int :=
  (x + 9223372036854775808) % 18446744073709551616 - 9223372036854775808

/-! ### `strconv.FormatInt`, `encoding/json` -/

/-- The digit loop of `strconv.FormatInt` in base 10: the decimal digits of
`n`, most significant first, in front of `acc`. -/
def formatLoop : Nat → Nat → List Nat → List Nat
  | 0, _, acc => acc
  | fuel + 1, n, acc =>
    if n < 10 then (48 + n) :: acc
    else formatLoop fuel (n / 10) ((48 + n % 10) :: acc)

/-- Decimal text of a natural number. -/
def formatUint (n : Nat) : List Nat := formatLoop (n + 1) n []

/-- `strconv.FormatInt(v, 10)`, which is also what `fmt.Sprintf("%d", v)` and
the JSON encoder write for an `int`. -/
def FormatInt (v : Int) : List Nat :=
  if v < 0 then 45 :: formatUint v.natAbs else formatUint v.natAbs

/-- `fmt.Sprintf("%v", b)` for a `bool`. -/
def formatBool (b : Bool) : List Nat :=
  if b then bytes "true" else bytes "false"

/-- The digit `n` of `"0123456789abcdef"`. -/
def hexDigit (n : Nat) : Nat := if n < 10 then 48 + n else 87 + n

/-- `htmlSafeSet` of encoding/json: the ASCII bytes written as they are. -/
def htmlSafe (b : Nat) : Bool :=
  decide (0x20 ≤ b ∧ b < 0x80 ∧ b ≠ 0x22 ∧ b ≠ 0x26 ∧ b ≠ 0x3C ∧ b ≠ 0x3E ∧ b ≠ 0x5C)

/-- The escape the JSON encoder writes for an ASCII byte outside `htmlSafeSet`. -/
def escapeByte (b : Nat) : List Nat :=
  if b = 0x5C ∨ b = 0x22 then [0x5C, b]
  else if b = 0x08 then [0x5C, 0x62]
  else if b = 0x0C then [0x5C, 0x66]
  else if b = 0x0A then [0x5C, 0x6E]
  else if b = 0x0D then [0x5C, 0x72]
  else if b = 0x09 then [0x5C, 0x74]
  else [0x5C, 0x75, 0x30, 0x30, hexDigit (b / 16), hexDigit (b % 16)]

/-- The loop of `appendString` of encoding/json (with `escapeHTML`): ASCII
outside `htmlSafeSet` is escaped, an invalid UTF-8 byte is written as the
escape of U+FFFD, U+2028 and U+2029 are escaped, every other rune is copied. -/
def appendStringLoop : Nat → List Nat → List Nat
  | 0, _ => []
  | _ + 1, [] => []
  | fuel + 1, b :: rest =>
    if b < 0x80 then
      if htmlSafe b then b :: appendStringLoop fuel rest
      else escapeByte b ++ appendStringLoop fuel rest
    else
      let d := decodeRune ((b :: rest).take 4)
      if d.1 = runeError ∧ d.2 = 1 then
        [0x5C, 0x75, 0x66, 0x66, 0x66, 0x64] ++ appendStringLoop fuel rest
      else if d.1 = 0x2028 ∨ d.1 = 0x2029 then
        [0x5C, 0x75, 0x32, 0x30, 0x32, hexDigit (d.1 % 16)] ++
          appendStringLoop fuel ((b :: rest).drop d.2)
      else (b :: rest).take d.2 ++ appendStringLoop fuel ((b :: rest).drop d.2)

/-- `appendString`: a Go string as a JSON string literal. -/
def appendString (s : List Nat) : List Nat :=
  0x22 :: (appendStringLoop s.length s ++ [0x22])

/-- `json.Marshal` of a struct with the fields `id` (int), `task` (string) and
`done` (bool), in that order. -/
def marshalRecord (id : Int) (task : List Nat) (done : Bool) : List Nat :=
  bytes "\x7b\"id\":" ++ FormatInt id ++ bytes ",\"task\":" ++ appendString task ++
    bytes ",\"done\":" ++ formatBool done ++ bytes "\x7d"

/-- Input left after the literal `lit`, when the input starts with it. -/
def expectBytes : List Nat → List Nat → Option (List Nat)
  | [], s => some s
  | _ :: _, [] => none
  | l :: ls, c :: cs => if l = c then expectBytes ls cs else none

/-- Value of a hexadecimal digit. -/
def hexValue (c : Nat) : Option Nat :=
  if 48 ≤ c ∧ c ≤ 57 then some (c - 48)
  else if 97 ≤ c ∧ c ≤ 102 then some (c - 87)
  else if 65 ≤ c ∧ c ≤ 70 then some (c - 55)
  else none

/-- `getu4` of encoding/json: the rune written by four hexadecimal digits. -/
def getu4 (a b c d : Nat) : Option Nat :=
  match hexValue a, hexValue b, hexValue c, hexValue d with
  | some x, some y, some z, some w => some (x * 4096 + y * 256 + z * 16 + w)
  | _, _, _, _ => none

/-- The rune of a `\uXXXX` escape with value `rr` followed by the input
`rest`, and the input left: a surrogate pair written as two escapes is
combined, a lone surrogate is replaced by U+FFFD. -/
def unescapeRune (rr : Nat) (rest : List Nat) : Nat × List Nat :=
  if 0xD800 ≤ rr ∧ rr < 0xE000 then
    match rest with
    | 0x5C :: 0x75 :: a :: b :: c :: d :: rest' =>
      match getu4 a b c d with
      | some rr1 =>
        if rr < 0xDC00 ∧ 0xDC00 ≤ rr1 ∧ rr1 < 0xE000 then
          ((rr - 0xD800) * 1024 + (rr1 - 0xDC00) + 0x10000, rest')
        else (runeError, rest)
      | none => (runeError, rest)
    | _ => (runeError, rest)
  else (rr, rest)

/-- Scanning and unquoting of a JSON string literal whose opening quote has
been read (the string states of the scanner and `unquoteBytes` of
encoding/json): the decoded bytes and the input after the closing quote.
A control character, an unknown escape or a missing closing quote is an
error; bytes that are not valid UTF-8 are replaced by U+FFFD. -/
def unquoteLoop : Nat → List Nat → Option (List Nat × List Nat)
  | 0, _ => none
  | _ + 1, [] => none
  | fuel + 1, c :: rest =>
    if c = 0x22 then some ([], rest)
    else if c = 0x5C then
      match rest with
      | [] => none
      | e :: rest1 =>
        if e = 0x22 ∨ e = 0x5C ∨ e = 0x2F then
          (unquoteLoop fuel rest1).map (fun r => (e :: r.1, r.2))
        else if e = 0x62 then (unquoteLoop fuel rest1).map (fun r => (0x08 :: r.1, r.2))
        else if e = 0x66 then (unquoteLoop fuel rest1).map (fun r => (0x0C :: r.1, r.2))
        else if e = 0x6E then (unquoteLoop fuel rest1).map (fun r => (0x0A :: r.1, r.2))
        else if e = 0x72 then (unquoteLoop fuel rest1).map (fun r => (0x0D :: r.1, r.2))
        else if e = 0x74 then (unquoteLoop fuel rest1).map (fun r => (0x09 :: r.1, r.2))
        else if e = 0x75 then
          match rest1 with
          | a :: b :: c' :: d :: rest2 =>
            match getu4 a b c' d with
            | some rr =>
              let u := unescapeRune rr rest2
              (unquoteLoop fuel u.2).map (fun r => (encodeRune u.1 ++ r.1, r.2))
            | none => none
          | _ => none
        else none
    else if c < 0x20 then none
    else if c < 0x80 then (unquoteLoop fuel rest).map (fun r => (c :: r.1, r.2))
    else
      let d := decodeRune (c :: rest)
      (unquoteLoop fuel ((c :: rest).drop d.2)).map (fun r => (encodeRune d.1 ++ r.1, r.2))

/-- Bytes that may occur in a JSON number literal. -/
def isNumberByte (c : Nat) : Bool :=
  decide ((48 ≤ c ∧ c ≤ 57) ∨ c = 45 ∨ c = 43 ∨ c = 46 ∨ c = 101 ∨ c = 69)

/-- Whether a token is a JSON integer literal: an optional minus sign, then
`0` or a digit string that does not start with `0`. -/
def isIntegerLiteral (tok : List Nat) : Bool :=
  let digits := if tok.head? = some 45 then tok.tail else tok
  match digits with
  | [] => false
  | [d] => decide (48 ≤ d ∧ d ≤ 57)
  | d :: ds => decide (49 ≤ d ∧ d ≤ 57) && ds.all (fun c => decide (48 ≤ c ∧ c ≤ 57))

/-- A JSON number stored into an `int` field: the literal is read up to the
first byte that cannot belong to a number and converted with
`strconv.ParseInt`; a fraction, an exponent or a value outside `int64` is an
error. -/
def parseIntLiteral (s : List Nat) : Option (Int × List Nat) :=
  let tok := s.takeWhile isNumberByte
  if isIntegerLiteral tok then
    match ParseInt tok with
    | .ok v => some (v, s.dropWhile isNumberByte)
    | .error _ => none
  else none

/-- A JSON literal stored into a `bool` field. -/
def parseBoolLiteral (s : List Nat) : Option (Bool × List Nat) :=
  match expectBytes (bytes "true") s with
  | some rest => some (true, rest)
  | none =>
    match expectBytes (bytes "false") s with
    | some rest => some (false, rest)
    | none => none

/-- `json.Unmarshal` into a struct with the fields `id` (int), `task`
(string) and `done` (bool), on the inputs of the shape the encoder writes: an
object holding exactly these three members in this order, without white
space. The literals are decoded as encoding/json decodes them. Any other input
is reported as an error: the model is exact on the payloads `marshalRecord`
produces and says nothing about the other inputs Go accepts. -/
def unmarshalRecord (data : List Nat) : Option (Int × List Nat × Bool) := do
  let s ← expectBytes (bytes "\x7b\"id\":") data
  let (id, s) ← parseIntLiteral s
  let s ← expectBytes (bytes ",\"task\":\"") s
  let (task, s) ← unquoteLoop s.length s
  let s ← expectBytes (bytes ",\"done\":") s
  let (done, s) ← parseBoolLiteral s
  let s ← expectBytes (bytes "\x7d") s
  if s = [] then some (id, task, done) else none

/-- `utf8.Valid`: every rune of the byte sequence is validly encoded. -/
def validUTF8 : Nat → List Nat → Bool
  | 0, s => decide (s = [])
  | _ + 1, [] => true
  | fuel + 1, b :: rest =>
    let d := decodeRune (b :: rest)
    if d.1 = runeError ∧ d.2 = 1 then false
    else validUTF8 fuel ((b :: rest).drop d.2)

/-- The byte sequences `b :: tl` that start with a validly encoded rune of
two, three or four bytes: lead byte `b`, then continuation bytes within the
ranges `utf8.DecodeRune` accepts after that lead byte. -/
inductive MultiByte : Nat → List Nat → Prop where
  | two (b s1 : Nat) (t : List Nat) (h1 : 0xC2 ≤ b) (h2 : b < 0xE0)
      (h3 : 0x80 ≤ s1) (h4 : s1 ≤ 0xBF) : MultiByte b (s1 :: t)
  | three (b s1 s2 : Nat) (t : List Nat) (h1 : 0xE0 ≤ b) (h2 : b < 0xF0)
      (h3 : 0x80 ≤ s1) (h4 : s1 ≤ 0xBF) (h5 : b = 0xE0 → 0xA0 ≤ s1)
      (h6 : b = 0xED → s1 ≤ 0x9F) (h7 : 0x80 ≤ s2) (h8 : s2 ≤ 0xBF) :
      MultiByte b (s1 :: s2 :: t)
  | four (b s1 s2 s3 : Nat) (t : List Nat) (h1 : 0xF0 ≤ b) (h2 : b ≤ 0xF4)
      (h3 : 0x80 ≤ s1) (h4 : s1 ≤ 0xBF) (h5 : b = 0xF0 → 0x90 ≤ s1)
      (h6 : b = 0xF4 → s1 ≤ 0x8F) (h7 : 0x80 ≤ s2) (h8 : s2 ≤ 0xBF)
      (h9 : 0x80 ≤ s3) (h10 : s3 ≤ 0xBF) : MultiByte b (s1 :: s2 :: s3 :: t)

/-- `utf8.Valid(s)`. -/
def Valid (s : List Nat) : Bool := validUTF8 s.length s

/-- The coercion to valid UTF-8 that `json.Marshal` applies to a Go string
("coerced to valid UTF-8, replacing invalid bytes with the Unicode replacement
rune"): every validly encoded rune is kept, every byte that does not start a
valid encoding is replaced by the three bytes of U+FFFD. -/
def coerceLoop : Nat → List Nat → List Nat
  | 0, _ => []
  | _ + 1, [] => []
  | fuel + 1, b :: rest =>
    let d := decodeRune (b :: rest)
    if d.1 = runeError ∧ d.2 = 1 then encodeRune runeError ++ coerceLoop fuel rest
    else (b :: rest).take d.2 ++ coerceLoop fuel ((b :: rest).drop d.2)

/-- The string `s` coerced to valid UTF-8 (see `coerceLoop`). -/
def coerceUTF8 (s : List Nat) : List Nat := coerceLoop s.length s

end Go

namespace ImageService

/-! ## image-service: data model -/

/-- Smallest value of a Go `time.Duration` (`math.MinInt64` nanoseconds). -/
def minDuration : Int := -9223372036854775808

/-- Largest value of a Go `time.Duration` (`math.MaxInt64` nanoseconds). -/
def maxDuration : Int := 9223372036854775807

/-- Go `time.Duration`: a nanosecond count that fits a signed 64-bit integer. -/
structure Duration where
  ns : Int
  inRange : minDuration ≤ ns ∧ ns ≤ maxDuration

instance : DecidableEq Duration := fun a b =>
  if h : a.ns = b.ns then isTrue (by cases a; cases b; simp_all)
  else isFalse (fun e => h (by rw [e]))

/-- Go `Time.Sub`: the difference `t - u` of two instants as a `Duration`;
a difference that does not fit is replaced by the nearest representable
duration. -/
def timeSub (t u : Int) : Duration :=
  if h₁ : t - u < minDuration then ⟨minDuration, by decide⟩
  else if h₂ : maxDuration < t - u then ⟨maxDuration, by decide⟩
  else ⟨t - u, by omega⟩

/-- Go `time.Since(t)`, which is `time.Now().Sub(t)`; `now` is the clock reading. -/
def timeSince (now t : Int) : Duration := timeSub now t

/-- The part of `os.FileInfo` the repository reads, together with the
contents of the file: the state of the cache slot when it exists. -/
structure FileInfo where
  data : List Nat
  modTime : Int
deriving DecidableEq

/-- `ImageInfo` of imagecontroller.go: the descriptor handed to callers. -/
structure ImageInfo where
  Path : String
  CachedAt : Int
deriving DecidableEq

/-- `localImageRepository` of imagerepository.go. -/
structure localImageRepository where
  imageDirectory : String
  cachedImageName : String
  imageCacheDuration : Duration
  imageUrl : String

/-- What `http.Get` hands back: a transport error, or a response with its
status code and body. -/
inductive HttpResult where
  | transportError (msg : String)
  | response (statusCode : Nat) (body : List Nat)
deriving DecidableEq

/-- Everything outside the process that one call of `GetCachedImage`
consults, in the order the code consults it. -/
structure Outside where
  /-- Clock reading taken by `time.Since` (line 38). -/
  now : Int
  /-- Result of `http.Get(r.imageUrl)` (line 68). -/
  http : HttpResult
  /-- Error of `os.Create(imagePath)` (line 83), if it fails. -/
  createErr : Option String
  /-- Modification time the file system stamps when `os.Create` creates or truncates the file. -/
  createdAt : Int
  /-- Failure of `io.Copy` (line 94): the number of body bytes that reached
  the file before the error, and the error. -/
  copyErr : Option (Nat × String)
  /-- Modification time the file system stamps at the last write of `io.Copy`. -/
  writtenAt : Int
  /-- Clock reading taken by `time.Now()` (line 99). -/
  savedAt : Int

/-- What a call does to the outside, in program order. -/
inductive Effect where
  | httpGet (url : String)
  | create (path : String)
  | write (path : String) (bytes : List Nat)
deriving DecidableEq

/-- Result of a call: what is returned to the caller, the cache slot after
the call, and the effects performed. -/
structure Outcome where
  result : Except String ImageInfo
  slot : Option FileInfo
  effects : List Effect

/-- `filepath.Join(r.imageDirectory, r.cachedImageName)`. -/
def imagePath (r : localImageRepository) : String :=
  r.imageDirectory ++ "/" ++ r.cachedImageName

/-- A write of `bytes` to the open file at file-system time `t`: the bytes
are appended and the modification time is stamped; writing nothing leaves
the file as it is. -/
def fileWrite (f : FileInfo) (bytes : List Nat) (t : Int) : FileInfo :=
  if bytes = [] then f else ⟨f.data ++ bytes, t⟩

/-- `localImageRepository.downloadNewImage` (imagerepository.go 61-108). -/
def downloadNewImage (r : localImageRepository) (o : Outside)
    (slot : Option FileInfo) : Outcome :=
  match o.http with
  | .transportError msg =>
    ⟨.error ("failed to download image: " ++ msg), slot, [.httpGet r.imageUrl]⟩
  | .response statusCode body =>
    if statusCode ≠ 200 then
      ⟨.error ("failed to download image: HTTP " ++ toString statusCode), slot,
        [.httpGet r.imageUrl]⟩
    else
      match o.createErr with
      | some msg =>
        ⟨.error ("failed to create image file: " ++ msg), slot,
          [.httpGet r.imageUrl, .create (imagePath r)]⟩
      | none =>
        let file : FileInfo := ⟨[], o.createdAt⟩
        match o.copyErr with
        | some (written, msg) =>
          ⟨.error ("failed to save image: " ++ msg),
            some (fileWrite file (body.take written) o.writtenAt),
            [.httpGet r.imageUrl, .create (imagePath r),
              .write (imagePath r) (body.take written)]⟩
        | none =>
          ⟨.ok ⟨"/files/" ++ r.cachedImageName, o.savedAt⟩,
            some (fileWrite file body o.writtenAt),
            [.httpGet r.imageUrl, .create (imagePath r), .write (imagePath r) body]⟩

/-- `localImageRepository.GetCachedImage` (imagerepository.go 34-59);
`os.Stat` succeeds exactly when the slot file exists. -/
def GetCachedImage (r : localImageRepository) (o : Outside)
    (slot : Option FileInfo) : Outcome :=
  match slot with
  | some fileInfo =>
    let cacheAge := timeSince o.now fileInfo.modTime
    if cacheAge.ns < r.imageCacheDuration.ns then
      ⟨.ok ⟨"/files/" ++ r.cachedImageName, fileInfo.modTime⟩, slot, []⟩
    else downloadNewImage r o slot
  | none => downloadNewImage r o slot

/-- Number of HTTP fetches among the effects of a call. -/
def fetches (es : List Effect) : Nat :=
  (es.filter (fun e => match e with | .httpGet _ => true | _ => false)).length

/-- Number of file-system mutations (create/truncate or write) among the effects. -/
def slotWrites (es : List Effect) : Nat :=
  (es.filter (fun e => match e with | .httpGet _ => false | _ => true)).length

/-- Whether the call returned an error to its caller. -/
def Outcome.failed (out : Outcome) : Bool :=
  match out.result with
  | .error _ => true
  | .ok _ => false

/-- A repository configured as `main` does by default: slot `current_image.jpg`,
TTL of ten minutes, the placeholder image source. -/
def sampleRepository : localImageRepository :=
  ⟨"/usr/src/image", "current_image.jpg", ⟨600000000000, by decide⟩,
    "https://picsum.photos/300"⟩

/-- A refresh that succeeds: the source answers 200 with three bytes, the file
system stamps the last write at 1002 and the clock reads 1003 afterwards. -/
def sampleRefresh : Outside :=
  { now := 1000, http := .response 200 [1, 2, 3], createErr := none, createdAt := 1001,
    copyErr := none, writtenAt := 1002, savedAt := 1003 }

/-- A later read, well inside the TTL, whose source would answer 404 if asked. -/
def sampleLaterRead : Outside :=
  { now := 2000, http := .response 404 [], createErr := none, createdAt := 2001,
    copyErr := none, writtenAt := 2002, savedAt := 2003 }

/-- A read half a TTL after `sampleRefresh` began (clock 1000 + T/2). -/
def sampleHalfRead : Outside :=
  { now := 300000001000, http := .response 200 [4, 5], createErr := none,
    createdAt := 300000001001, copyErr := none, writtenAt := 300000001002,
    savedAt := 300000001003 }

/-- A read two TTLs after `sampleRefresh` began (clock 1000 + 2T). -/
def sampleExpiredRead : Outside :=
  { now := 1200000001000, http := .response 200 [6], createErr := none,
    createdAt := 1200000001001, copyErr := none, writtenAt := 1200000001002,
    savedAt := 1200000001003 }

/-- A refresh that fails while the body is streamed: the source answers 200
with four bytes and `io.Copy` fails after two of them reached the file. -/
def sampleBrokenRefresh : Outside :=
  { now := 1200000001000, http := .response 200 [4, 5, 6, 7], createErr := none,
    createdAt := 1200000001001, copyErr := some (2, "unexpected EOF"),
    writtenAt := 1200000001002, savedAt := 1200000001003 }

/-- A read shortly after `sampleBrokenRefresh`, well inside the TTL. -/
def sampleReadAfterBrokenRefresh : Outside :=
  { now := 1200000002000, http := .response 200 [4, 5, 6, 7], createErr := none,
    createdAt := 1200000002001, copyErr := none, writtenAt := 1200000002002,
    savedAt := 1200000002003 }

/-! ## image-service: utils.go -/

/-- The result of an `int64` operation as a `Duration`. -/
def Duration.ofInt64 (x : Int) : Duration :=
  ⟨Go.wrapInt64 x, by unfold Go.wrapInt64 minDuration maxDuration; omega⟩

/-- `time.Minute`, in nanoseconds. -/
def minute : Int := 60000000000

/-- `getCacheDuration` (utils.go 18-33); `env` is what
`os.Getenv("CACHE_DURATION_MINUTES")` returns, empty when the variable is unset. -/
def getCacheDuration (env : List Nat) : Duration :=
  if env = [] then Duration.ofInt64 (10 * minute)
  else
    match Go.Atoi env with
    | .error _ => Duration.ofInt64 (10 * minute)
    | .ok minutes =>
      if minutes ≤ 0 then Duration.ofInt64 (10 * minute)
      else Duration.ofInt64 (minutes * minute)

/-- A repository whose TTL is the smallest duration, the value
`getCacheDuration` returns for `CACHE_DURATION_MINUTES=4503599627370496`. -/
def minTtlRepository : localImageRepository :=
  ⟨"/usr/src/image", "current_image.jpg", ⟨minDuration, by decide⟩,
    "https://picsum.photos/300"⟩

/-- A repository whose TTL is zero, the value `getCacheDuration` returns for
`CACHE_DURATION_MINUTES=9007199254740992`. -/
def zeroTtlRepository : localImageRepository :=
  ⟨"/usr/src/image", "current_image.jpg", ⟨0, by decide⟩, "https://picsum.photos/300"⟩

/-- A slot stamped 2^63 + 2000 ns after the epoch of the clock. -/
def farAheadSlot : FileInfo := ⟨[1, 2, 3], 9223372036854777808⟩

/-- A refresh at clock 1000 that succeeds and whose write and final clock
reading are stamped 1000 as well. -/
def sampleInstantRefresh : Outside :=
  { now := 1000, http := .response 200 [1, 2, 3], createErr := none, createdAt := 1000,
    copyErr := none, writtenAt := 1000, savedAt := 1000 }

/-- A refresh at clock 1000 that succeeds on a file system whose clock is ten
minutes behind: the write is stamped 1000 - 600000000000. -/
def sampleSkewedRefresh : Outside :=
  { now := 1000, http := .response 200 [1, 2, 3], createErr := none,
    createdAt := -599999999000, copyErr := none, writtenAt := -599999999000,
    savedAt := 1003 }

end ImageService

namespace TodoService

/-! ## todo-service: main.go -/

/-- `maxRetries` of main.go. -/
def maxRetries : Nat := 10

/-- `retryInterval` of main.go, in nanoseconds (`5 * time.Second`). -/
def retryInterval : Int := 5000000000

/-- The database seen from `initDB`: an oracle answering each call. Attempts
are numbered from 1. -/
structure Store where
  /-- Whether `sqlx.Connect` of attempt `i` returns without error (line 80). -/
  connect : Nat → Bool
  /-- Whether the probe `db.Ping()` of attempt `i` succeeds (line 81). -/
  ping : Nat → Bool
  /-- Whether the probe `db.Ping()` made after the loop succeeds (line 87). -/
  finalPing : Bool
  /-- Whether `CREATE TABLE IF NOT EXISTS` succeeds (line 91). -/
  createTable : Bool

/-- The four `POSTGRES_*` variables read by `initDB`. -/
structure DbEnv where
  dbHost : List Nat
  dbUser : List Nat
  dbPass : List Nat
  dbName : List Nat

/-- How `initDB` ends: it returns the connection, or `log.Fatal` ends the process. -/
inductive InitResult where
  | connected
  | fatal (msg : String)
deriving DecidableEq

/-- What `initDB` did: how it ended and how many times it called `sqlx.Connect`. -/
structure InitOutcome where
  result : InitResult
  attempts : Nat
deriving DecidableEq

/-- The retry loop of `initDB` (main.go 79-86). `remaining` iterations are
left, `made` attempts were made, `err` tells whether the last `sqlx.Connect`
returned an error; the result is the number of attempts made and the final `err`.
The probe is evaluated only when the connection succeeded; an iteration that
does not break logs the failure and sleeps `retryInterval`. -/
def connectLoop (st : Store) : Nat → Nat → Bool → Nat × Bool
  | 0, made, err => (made, err)
  | remaining + 1, made, _ =>
    if st.connect (made + 1) then
      if st.ping (made + 1) then (made + 1, false)
      else connectLoop st remaining (made + 1) false
    else connectLoop st remaining (made + 1) true

/-- `initDB` (main.go 62-105). -/
def initDB (env : DbEnv) (st : Store) : InitOutcome :=
  if env.dbHost = [] ∨ env.dbName = [] ∨ env.dbUser = [] ∨ env.dbPass = [] then
    ⟨.fatal "All database environment variables not set", 0⟩
  else
    let loop := connectLoop st maxRetries 0 false
    if loop.2 = true ∨ st.finalPing = false then
      ⟨.fatal "Failed to connect to database after retries", loop.1⟩
    else if st.createTable = false then
      ⟨.fatal "Failed to create table:", loop.1⟩
    else ⟨.connected, loop.1⟩

/-- The four variables are set (none is empty). -/
def DbEnv.complete (env : DbEnv) : Prop :=
  env.dbHost ≠ [] ∧ env.dbName ≠ [] ∧ env.dbUser ≠ [] ∧ env.dbPass ≠ []

instance (env : DbEnv) : Decidable env.complete := by
  unfold DbEnv.complete
  infer_instance

/-- All four variables set. -/
def sampleDbEnv : DbEnv :=
  ⟨Go.bytes "postgres-svc", Go.bytes "todo", Go.bytes "secret", Go.bytes "todos"⟩

/-- A store that fails attempts 1-3 and answers every call with success from
the 4th attempt on. -/
def storeUpAtFourth : Store :=
  ⟨fun i => decide (4 ≤ i), fun i => decide (4 ≤ i), true, true⟩

/-- A store that fails every call. -/
def storeAlwaysDown : Store :=
  ⟨fun _ => false, fun _ => false, false, false⟩

/-- A store that accepts every connection, fails every probe made inside the
loop and answers the probe made after the loop. -/
def storeUpAfterLoop : Store :=
  ⟨fun _ => true, fun _ => false, true, true⟩

/-- A store whose first attempt succeeds and whose next probe fails. -/
def storeDownAfterFirst : Store :=
  ⟨fun _ => true, fun _ => true, false, true⟩

/-! ## todo-service: todocontroller.go -/

/-- `Todo` of todo-service/main.go. `ID` is a Go `int`. -/
structure Todo where
  ID : Int
  Task : List Nat
  Done : Bool
deriving DecidableEq

/-- The JSON body of a response. -/
inductive Body where
  /-- `gin.H{"error": msg}`. -/
  | error (msg : String)
  /-- A record as it is. -/
  | todo (t : Todo)
  /-- `gin.H{key: t}`. -/
  | keyed (key : String) (t : Todo)
deriving DecidableEq

/-- What `ctx.JSON(status, body)` sends. -/
structure Response where
  status : Nat
  body : Body
deriving DecidableEq

/-- What a handler does to the outside, in program order. -/
inductive Effect where
  /-- `client.Do(req)` of `createRandomTodo`. -/
  | httpGet (url : List Nat)
  /-- `c.repo.AddTodo(task)` and what it returned. -/
  | addTodo (task : List Nat) (result : Except String Todo)
  /-- `c.repo.markTodoDone(id)` and what it returned. -/
  | markTodoDone (id : Int) (result : Except String Todo)
  /-- A call of `c.sendNatsMessage(subject, todo)`. -/
  | sendNatsMessage (subject : String) (todo : Todo)
  /-- `nats.Connect(natsURL)`. -/
  | natsConnect (url : List Nat)
  /-- `nc.Publish(subject, data)` and the error it returned, if any. -/
  | natsPublish (subject : String) (data : List Nat) (err : Option String)
  /-- `ctx.JSON(...)`. -/
  | respond (r : Response)
deriving DecidableEq

/-- `TodoRepository`: the store as the controller sees it. -/
structure TodoRepository where
  AddTodo : List Nat → Except String Todo
  markTodoDone : Int → Except String Todo

/-- Everything outside the process that `sendNatsMessage` consults. -/
structure Bus where
  /-- `os.Getenv("NATS_URL")`. -/
  natsURL : List Nat
  /-- Error of `nats.Connect`, if it fails. -/
  connectErr : Option String
  /-- `json.Marshal(todo)`. -/
  marshal : Todo → Except String (List Nat)
  /-- Error of `nc.Publish`, if it fails. -/
  publishErr : Option String

/-- `json.Marshal` of a `Todo` (field tags `id`, `task`, `done`). -/
def jsonMarshal (t : Todo) : List Nat := Go.marshalRecord t.ID t.Task t.Done

/-- `TodosController.sendNatsMessage` (todocontroller.go 245-269). -/
def sendNatsMessage (subject : String) (todo : Todo) (bus : Bus) : List Effect :=
  .sendNatsMessage subject todo ::
    (if bus.natsURL = [] then []
     else
      match bus.connectErr with
      | some _ => [.natsConnect bus.natsURL]
      | none =>
        match bus.marshal todo with
        | .error _ => [.natsConnect bus.natsURL]
        | .ok data => [.natsConnect bus.natsURL, .natsPublish subject data bus.publishErr])

/-- `validateAndLogTask` (todocontroller.go 212-243): the accepted task, or
the response sent when the task is rejected. -/
def validateAndLogTask (task : List Nat) : Except Response (List Nat) :=
  if task = [] then .error ⟨400, .error "Task cannot be empty"⟩
  else if 140 < task.length then .error ⟨400, .error "Task cannot exceed 140 characters"⟩
  else .ok task

/-- `TodosController.createTodo` (todocontroller.go 39-65); `bind` is what
`ctx.BindJSON` yields: an error, or the `task` of the request body. -/
def createTodo (bind : Except String (List Nat)) (repo : TodoRepository) (bus : Bus) :
    List Effect :=
  match bind with
  | .error e => [.respond ⟨400, .error e⟩]
  | .ok requestTask =>
    match validateAndLogTask requestTask with
    | .error resp => [.respond resp]
    | .ok task =>
      match repo.AddTodo task with
      | .error e => [.addTodo task (.error e), .respond ⟨500, .error e⟩]
      | .ok newTodo =>
        .addTodo task (.ok newTodo) ::
          (sendNatsMessage "todo.created" newTodo bus ++ [.respond ⟨201, .todo newTodo⟩])

/-- Everything outside the process that `createRandomTodo` consults before
it reaches the store. -/
structure ArticleSource where
  /-- `os.Getenv("RANDOM_ARTICLE_URL")`. -/
  randomArticleURL : List Nat
  /-- Error of `http.NewRequest`, if it fails. -/
  requestErr : Option String
  /-- Result of `client.Do(req)`: an error, or the status code and the URL
  of the final request after redirects. -/
  response : Except String (Nat × List Nat)

/-- `TodosController.createRandomTodo` (todocontroller.go 82-153). -/
def createRandomTodo (src : ArticleSource) (repo : TodoRepository) (bus : Bus) :
    List Effect :=
  if src.randomArticleURL = [] then
    [.respond ⟨500, .error "RANDOM_ARTICLE_URL is not set"⟩]
  else
    match src.requestErr with
    | some e => [.respond ⟨500, .error e⟩]
    | none =>
      match src.response with
      | .error e => [.httpGet src.randomArticleURL, .respond ⟨500, .error e⟩]
      | .ok (statusCode, redirectedURL) =>
        .httpGet src.randomArticleURL ::
          (if statusCode ≠ 200 then
            [.respond ⟨500, .error "Failed to fetch random article"⟩]
          else if redirectedURL = src.randomArticleURL then
            [.respond ⟨400, .error "Cannot read the same article twice"⟩]
          else
            match validateAndLogTask (Go.bytes "Read: " ++ redirectedURL) with
            | .error resp => [.respond resp]
            | .ok task =>
              match repo.AddTodo task with
              | .error e => [.addTodo task (.error e), .respond ⟨500, .error e⟩]
              | .ok createdTodo =>
                .addTodo task (.ok createdTodo) ::
                  (sendNatsMessage "todo.created" createdTodo bus ++
                    [.respond ⟨201, .keyed "New todo created" createdTodo⟩]))

/-- `TodosController.markTodoDone` (todocontroller.go 155-190); `idParam` is
`ctx.Param("id")`. -/
def markTodoDone (idParam : List Nat) (repo : TodoRepository) (bus : Bus) : List Effect :=
  if idParam = [] then [.respond ⟨400, .error "Missing id parameter"⟩]
  else
    match Go.Atoi idParam with
    | .error _ => [.respond ⟨400, .error "Invalid id parameter"⟩]
    | .ok idParamInt =>
      match repo.markTodoDone idParamInt with
      | .error e => [.markTodoDone idParamInt (.error e), .respond ⟨500, .error e⟩]
      | .ok todo =>
        .markTodoDone idParamInt (.ok todo) ::
          (sendNatsMessage "todo.updated" todo bus ++ [.respond ⟨200, .keyed "Todo updated" todo⟩])

/-- The responses sent during a run. -/
def responses : List Effect → List Response
  | [] => []
  | .respond r :: es => r :: responses es
  | _ :: es => responses es

/-- The calls of `sendNatsMessage` made during a run. -/
def natsCalls : List Effect → List (String × Todo)
  | [] => []
  | .sendNatsMessage subject t :: es => (subject, t) :: natsCalls es
  | _ :: es => natsCalls es

/-- The messages handed to `nc.Publish` during a run. -/
def publishes : List Effect → List (String × List Nat)
  | [] => []
  | .natsPublish subject data _ :: es => (subject, data) :: publishes es
  | _ :: es => publishes es

/-- The store operations of a run, with what each returned. -/
def storeReturns : List Effect → List (Except String Todo)
  | [] => []
  | .addTodo _ r :: es => r :: storeReturns es
  | .markTodoDone _ r :: es => r :: storeReturns es
  | _ :: es => storeReturns es

/-- Every call of `sendNatsMessage`, and every publish, comes after a store
operation that returned that record without error (`seen` holds the records
returned so far), and every publish comes after a call of `sendNatsMessage`
with the same subject (`called` holds the calls made so far). -/
def eventsFollowCommit : List Todo → List (String × Todo) → List Effect → Bool
  | _, _, [] => true
  | seen, called, .addTodo _ (.ok t) :: es => eventsFollowCommit (t :: seen) called es
  | seen, called, .markTodoDone _ (.ok t) :: es => eventsFollowCommit (t :: seen) called es
  | seen, called, .sendNatsMessage subject t :: es =>
    decide (t ∈ seen) && eventsFollowCommit seen ((subject, t) :: called) es
  | seen, called, .natsPublish subject _ _ :: es =>
    called.any (fun c => decide (c.1 = subject)) && eventsFollowCommit seen called es
  | seen, called, _ :: es => eventsFollowCommit seen called es

/-- The records returned by the store operations of a run that succeeded. -/
def committed : List Effect → List Todo
  | [] => []
  | .addTodo _ (.ok t) :: es => t :: committed es
  | .markTodoDone _ (.ok t) :: es => t :: committed es
  | _ :: es => committed es

/-- Publish-on-mutation discipline of a run of a mutation handler that
publishes on `subject`: at most one store operation is made; `sendNatsMessage`
is called exactly once for the record a successful store operation returned,
with that record, and not at all otherwise; every call and every publish comes
after the store operation returned that record without error; and nothing is
published when no store operation succeeded. -/
def publishesOnlyAfterCommit (subject : String) (tr : List Effect) : Prop :=
  (storeReturns tr).length ≤ 1 ∧
  natsCalls tr = (committed tr).map (fun t => (subject, t)) ∧
  eventsFollowCommit [] [] tr = true ∧
  (committed tr = [] → natsCalls tr = [] ∧ publishes tr = [])

instance (subject : String) (tr : List Effect) :
    Decidable (publishesOnlyAfterCommit subject tr) := by
  unfold publishesOnlyAfterCommit
  infer_instance

/-- A message bus on which publishing works, with the encoder the service uses. -/
def workingBus : Bus :=
  ⟨Go.bytes "nats://my-nats:4222", none, fun t => .ok (jsonMarshal t), none⟩

/-- A store that answers every operation: `AddTodo` returns the new record
with id 1, `markTodoDone` the record with the given id, done. -/
def sampleStore : TodoRepository :=
  ⟨fun task => .ok ⟨1, task, false⟩, fun id => .ok ⟨id, Go.bytes "buy milk", true⟩⟩

/-- A store whose every operation fails. -/
def failingStore : TodoRepository :=
  ⟨fun _ => .error "sql: connection refused", fun _ => .error "sql: no rows in result set"⟩

/-- A random-article source that redirects to an article. -/
def sampleArticle : ArticleSource :=
  ⟨Go.bytes "https://en.wikipedia.org/wiki/Special:Random", none,
    .ok (200, Go.bytes "https://en.wikipedia.org/wiki/Lean")⟩

end TodoService

namespace Broadcaster

/-! ## broadcaster-service: main.go -/

/-- `Todo` of broadcaster-service/main.go. -/
structure Todo where
  ID : Int
  Task : List Nat
  Done : Bool
deriving DecidableEq

/-- `discordwebhook.Field`. -/
structure Field where
  Name : String
  Value : List Nat
  Inline : Bool
deriving DecidableEq

/-- `discordwebhook.Embed`, the fields `sendDiscordEmbed` sets. -/
structure Embed where
  Title : String
  Color : Nat
  Timestamp : Int
  Fields : List Field
  Footer : String
deriving DecidableEq

/-- What the broadcaster does, in program order. -/
inductive Effect where
  /-- A call of the bound `handleEvent(event, todo)`. -/
  | handleEvent (event : String) (todo : Todo)
  /-- A call of `sendDiscordEmbed(webhookURL, title, todo)`, with the embed it composes. -/
  | sendDiscordEmbed (webhookURL : List Nat) (embed : Embed)
  /-- `discordwebhook.ExecuteWebhook(webhookURL, payload)`: the outbound POST. -/
  | executeWebhook (webhookURL : List Nat) (embed : Embed)
deriving DecidableEq

/-- Everything outside the process that a message callback consults. -/
structure Outside where
  /-- Clock reading taken by `time.Now()` in `sendDiscordEmbed`. -/
  now : Int
  /-- Error of `json.Marshal(hook)`, if it fails. -/
  marshalErr : Option String

/-- `sendDiscordEmbed` (main.go 88-133). -/
def sendDiscordEmbed (webhookURL : List Nat) (title : String) (todo : Todo) (o : Outside) :
    List Effect :=
  let embed : Embed :=
    { Title := title
      Color := 3066993
      Timestamp := o.now
      Fields :=
        [⟨"ID", Go.FormatInt todo.ID, true⟩,
          ⟨"Task", todo.Task, true⟩,
          ⟨"Done", Go.formatBool todo.Done, true⟩]
      Footer := "NATS → Discord Broadcaster" }
  .sendDiscordEmbed webhookURL embed ::
    (match o.marshalErr with
     | some _ => []
     | none => [.executeWebhook webhookURL embed])

/-- The handler bound in `forward` mode (main.go 43-46). -/
def forwardHandler (webhookURL : List Nat) (event : String) (todo : Todo) (o : Outside) :
    List Effect :=
  sendDiscordEmbed webhookURL event todo o

/-- The handler bound otherwise (main.go 48-50): it only logs. -/
def logOnlyHandler (_event : String) (_todo : Todo) (_o : Outside) : List Effect := []

/-- The mode switch of `main` (main.go 34-51): the `handleEvent` bound for
the value `mode` of `os.Getenv("MODE")`. -/
def bindHandler (webhookURL : List Nat) (mode : List Nat) :
    String → Todo → Outside → List Effect :=
  let mode := if mode = [] then Go.bytes "log-only" else mode
  if mode = Go.bytes "forward" then forwardHandler webhookURL
  else logOnlyHandler

/-- The callback of a subscription (main.go 59-70 and 72-83): `event` is the
label the callback passes on, `unmarshal` is `json.Unmarshal` into a `Todo`. -/
def subscriptionCallback (unmarshal : List Nat → Except String Todo)
    (handleEvent : String → Todo → Outside → List Effect) (event : String)
    (data : List Nat) (o : Outside) : List Effect :=
  match unmarshal data with
  | .error _ => []
  | .ok todo => .handleEvent event todo :: handleEvent event todo o

/-- The environment and the bus as `main` finds them at startup. -/
structure Startup where
  /-- `os.Getenv("DISCORD_WEBHOOK_URL")`. -/
  webhookURL : List Nat
  /-- `os.Getenv("NATS_URL")`. -/
  natsURL : List Nat
  /-- `os.Getenv("MODE")`. -/
  mode : List Nat
  /-- Whether `nats.Connect` succeeds. -/
  connected : Bool
  /-- Whether `QueueSubscribe("todo.created", ...)` succeeds. -/
  subscribedCreated : Bool
  /-- Whether `QueueSubscribe("todo.updated", ...)` succeeds. -/
  subscribedUpdated : Bool

/-- A subscription made by `main`: subject, queue group and callback. -/
structure Subscription where
  subject : String
  queue : String
  callback : List Nat → Outside → List Effect

/-- `main` (main.go 21-86): the subscriptions in place when it reaches
`select {}`, none when it returns before. A subscription attempt on a
connection that could not be established fails. -/
def main (unmarshal : List Nat → Except String Todo) (st : Startup) : List Subscription :=
  if st.webhookURL = [] then []
  else if st.natsURL = [] then []
  else
    let handleEvent := bindHandler st.webhookURL st.mode
    if st.connected = false ∨ st.subscribedCreated = false then []
    else if st.subscribedUpdated = false then []
    else
      [⟨"todo.created", "broadcaster",
          subscriptionCallback unmarshal handleEvent "Todo Created"⟩,
        ⟨"todo.updated", "broadcaster",
          subscriptionCallback unmarshal handleEvent "Todo Updated"⟩]

/-- Delivery of a message published on `subject` to the subscriptions of one
broadcaster: the callback of every subscription on that subject runs. -/
def deliver (subs : List Subscription) (subject : String) (data : List Nat) (o : Outside) :
    List Effect :=
  subs.flatMap (fun sub => if sub.subject = subject then sub.callback data o else [])

/-- `json.Unmarshal(m.Data, &todo)` on the payloads of the shape the
publisher writes (see `Go.unmarshalRecord`). -/
def jsonUnmarshal (data : List Nat) : Except String Todo :=
  match Go.unmarshalRecord data with
  | some (id, task, done) => .ok ⟨id, task, done⟩
  | none => .error "json: cannot unmarshal"

/-- The outbound calls (`sendDiscordEmbed`) made during a run. -/
def discordCalls : List Effect → List Embed
  | [] => []
  | .sendDiscordEmbed _ embed :: es => embed :: discordCalls es
  | _ :: es => discordCalls es

/-- The calls of the bound handler made during a run. -/
def handlerCalls : List Effect → List (String × Todo)
  | [] => []
  | .handleEvent event todo :: es => (event, todo) :: handlerCalls es
  | _ :: es => handlerCalls es

/-- The outbound webhook requests made during a run. -/
def webhookRequests : List Effect → List Embed
  | [] => []
  | .executeWebhook _ embed :: es => embed :: webhookRequests es
  | _ :: es => webhookRequests es

/-- A broadcaster whose variables are all set and whose connection and
subscriptions succeed, started with the given `MODE`. -/
def startupWith (mode : List Nat) : Startup :=
  ⟨Go.bytes "https://discord.com/api/webhooks/1/x", Go.bytes "nats://my-nats:4222", mode,
    true, true, true⟩

/-- The message of the specification's scenario. -/
def sampleMessage : List Nat :=
  Go.bytes "\x7b\"id\":1,\"task\":\"buy milk\",\"done\":false\x7d"

/-- The embed fields `sendDiscordEmbed` composes for a record with the given
id, description and completion flag. -/
def fieldsOf (id : Int) (task : List Nat) (done : Bool) : List Field :=
  [⟨"ID", Go.FormatInt id, true⟩, ⟨"Task", task, true⟩, ⟨"Done", Go.formatBool done, true⟩]

/-- A broadcaster in `forward` mode that reached `select {}`: both variables
set, connected, both subscriptions made. -/
def Startup.forwarding (st : Startup) : Prop :=
  st.webhookURL ≠ [] ∧ st.natsURL ≠ [] ∧ st.mode = Go.bytes "forward" ∧
    st.connected = true ∧ st.subscribedCreated = true ∧ st.subscribedUpdated = true

instance (st : Startup) : Decidable st.forwarding := by
  unfold Startup.forwarding
  infer_instance

end Broadcaster

/-! ## Theorems -/

section ImageCache

open ImageService

theorem fetches_downloadNewImage (r : localImageRepository) (o : Outside)
    (slot : Option FileInfo) : fetches (downloadNewImage r o slot).effects = 1 := by
  unfold downloadNewImage
  split
  · rfl
  · split
    · rfl
    · split
      · rfl
      · split <;> rfl

theorem timeSince_lt_iff (now m : Int) (ttl : Duration) (h : minDuration < ttl.ns) :
    (timeSince now m).ns < ttl.ns ↔ now - m < ttl.ns := by
  have hr := ttl.inRange
  unfold timeSince timeSub
  split
  · simp only; omega
  · split
    · simp only; omega
    · simp only

theorem getCachedImage_hit (r : localImageRepository) (o : Outside) (f : FileInfo)
    (h : (timeSince o.now f.modTime).ns < r.imageCacheDuration.ns) :
    GetCachedImage r o (some f) =
      ⟨.ok ⟨"/files/" ++ r.cachedImageName, f.modTime⟩, some f, []⟩ := by
  simp [GetCachedImage, h]

theorem getCachedImage_miss (r : localImageRepository) (o : Outside) (slot : Option FileInfo)
    (h : ∀ f, slot = some f → r.imageCacheDuration.ns ≤ (timeSince o.now f.modTime).ns) :
    GetCachedImage r o slot = downloadNewImage r o slot := by
  cases slot with
  | none => rfl
  | some f =>
    have := h f rfl
    simp only [GetCachedImage]
    rw [if_neg (by omega)]

theorem httpGet_mem_downloadNewImage (r : localImageRepository) (o : Outside)
    (slot : Option FileInfo) :
    Effect.httpGet r.imageUrl ∈ (downloadNewImage r o slot).effects := by
  unfold downloadNewImage
  split
  · simp
  · split
    · simp
    · split
      · simp
      · split <;> simp

theorem getCachedImage_decision (r : localImageRepository) (o : Outside)
    (slot : Option FileInfo) :
    (Effect.httpGet r.imageUrl ∈ (GetCachedImage r o slot).effects ↔
      (slot = none ∨
        ∃ f, slot = some f ∧ r.imageCacheDuration.ns ≤ (timeSince o.now f.modTime).ns)) ∧
    (fetches (GetCachedImage r o slot).effects = 1 ↔
      (slot = none ∨
        ∃ f, slot = some f ∧ r.imageCacheDuration.ns ≤ (timeSince o.now f.modTime).ns)) ∧
    (fetches (GetCachedImage r o slot).effects = 0 ↔
      ∃ f, slot = some f ∧ (timeSince o.now f.modTime).ns < r.imageCacheDuration.ns) := by
  cases slot with
  | none =>
    have h := fetches_downloadNewImage r o none
    have hm := httpGet_mem_downloadNewImage r o none
    have e : GetCachedImage r o none = downloadNewImage r o none := rfl
    rw [e, h]
    simp [hm]
  | some f =>
    by_cases hlt : (timeSince o.now f.modTime).ns < r.imageCacheDuration.ns
    · rw [getCachedImage_hit r o f hlt]
      simp [fetches, hlt]
    · have e := getCachedImage_miss r o (some f) (by
        intro g hg
        cases hg
        omega)
      have hm := httpGet_mem_downloadNewImage r o (some f)
      rw [e, fetches_downloadNewImage]
      simp [hlt, hm]
      omega

theorem getCachedImage_decision_exact (r : localImageRepository) (o : Outside)
    (slot : Option FileInfo) (hmin : minDuration < r.imageCacheDuration.ns) :
    (Effect.httpGet r.imageUrl ∈ (GetCachedImage r o slot).effects ↔
      (slot = none ∨ ∃ f, slot = some f ∧ r.imageCacheDuration.ns ≤ o.now - f.modTime)) ∧
    (fetches (GetCachedImage r o slot).effects = 1 ↔
      (slot = none ∨ ∃ f, slot = some f ∧ r.imageCacheDuration.ns ≤ o.now - f.modTime)) ∧
    (fetches (GetCachedImage r o slot).effects = 0 ↔
      ∃ f, slot = some f ∧ o.now - f.modTime < r.imageCacheDuration.ns) := by
  have h := getCachedImage_decision r o slot
  have conv : ∀ f : FileInfo,
      (r.imageCacheDuration.ns ≤ (timeSince o.now f.modTime).ns ↔
        r.imageCacheDuration.ns ≤ o.now - f.modTime) ∧
      ((timeSince o.now f.modTime).ns < r.imageCacheDuration.ns ↔
        o.now - f.modTime < r.imageCacheDuration.ns) := by
    intro f
    have := timeSince_lt_iff o.now f.modTime r.imageCacheDuration hmin
    constructor <;> omega
  have e1 : (∃ f, slot = some f ∧ r.imageCacheDuration.ns ≤ (timeSince o.now f.modTime).ns) ↔
      (∃ f, slot = some f ∧ r.imageCacheDuration.ns ≤ o.now - f.modTime) :=
    ⟨fun ⟨f, hf, hle⟩ => ⟨f, hf, (conv f).1.1 hle⟩, fun ⟨f, hf, hle⟩ => ⟨f, hf, (conv f).1.2 hle⟩⟩
  have e2 : (∃ f, slot = some f ∧ (timeSince o.now f.modTime).ns < r.imageCacheDuration.ns) ↔
      (∃ f, slot = some f ∧ o.now - f.modTime < r.imageCacheDuration.ns) :=
    ⟨fun ⟨f, hf, hle⟩ => ⟨f, hf, (conv f).2.1 hle⟩, fun ⟨f, hf, hle⟩ => ⟨f, hf, (conv f).2.2 hle⟩⟩
  rw [← e1, ← e2]
  exact h

theorem downloadNewImage_ok_slot (r : localImageRepository) (o : Outside)
    (slot : Option FileInfo) (hok : (downloadNewImage r o slot).failed = false) :
    ∃ f, (downloadNewImage r o slot).slot = some f := by
  unfold downloadNewImage at hok ⊢
  split at hok
  · simp [Outcome.failed] at hok
  · split at hok
    · simp [Outcome.failed] at hok
    · split at hok
      · simp [Outcome.failed] at hok
      · split at hok
        · simp [Outcome.failed] at hok
        · simp_all

/-- Counterexample to C1 as stated.
(1) TTL = the smallest duration (what `getCacheDuration` returns for
`CACHE_DURATION_MINUTES=4503599627370496`), clock 1000, slot stamped more than
2^63 ns ahead of the clock: `now - last_modified < ttl`, yet `time.Since`
saturates at the smallest duration, the comparison `cacheAge < ttl` fails and
`GetCachedImage` fetches.
(2) TTL = 0 (returned for `9007199254740992`): a first read at `t0 = 1000`
fetches and stamps the slot at 1000; the read at `t0 + T/2 = 1000` fetches
again.
(3) TTL = ten minutes: a first read at `t0 = 1000` fetches, and the file
system stamps the slot ten minutes behind the clock; the read at `t0 + T/2`
fetches again. -/
theorem getCachedImage_decision_not_for_every_ttl :
    ((getCacheDuration (Go.bytes "4503599627370496")).ns = minDuration ∧
      minTtlRepository.imageCacheDuration.ns = minDuration ∧
      sampleRefresh.now - farAheadSlot.modTime < minTtlRepository.imageCacheDuration.ns ∧
      fetches (GetCachedImage minTtlRepository sampleRefresh (some farAheadSlot)).effects = 1) ∧
    ((getCacheDuration (Go.bytes "9007199254740992")).ns = 0 ∧
      zeroTtlRepository.imageCacheDuration.ns = 0 ∧
      fetches (GetCachedImage zeroTtlRepository sampleInstantRefresh none).effects = 1 ∧
      (GetCachedImage zeroTtlRepository sampleInstantRefresh none).failed = false ∧
      sampleInstantRefresh.now = 1000 + zeroTtlRepository.imageCacheDuration.ns / 2 ∧
      fetches (GetCachedImage zeroTtlRepository sampleInstantRefresh
        (GetCachedImage zeroTtlRepository sampleInstantRefresh none).slot).effects = 1) ∧
    (fetches (GetCachedImage sampleRepository sampleSkewedRefresh none).effects = 1 ∧
      (GetCachedImage sampleRepository sampleSkewedRefresh none).failed = false ∧
      sampleHalfRead.now = sampleSkewedRefresh.now + sampleRepository.imageCacheDuration.ns / 2 ∧
      fetches (GetCachedImage sampleRepository sampleHalfRead
        (GetCachedImage sampleRepository sampleSkewedRefresh none).slot).effects = 1) := by
  decide

/-- C1, as the code has it (cache-or-refresh decision of `GetCachedImage`).
(1) For every state of the slot, every clock value and every TTL other than
the smallest duration: a call issues an HTTP fetch of the source URL, and
then exactly one fetch, if and only if the slot is absent or
`now - last_modified >= ttl`; it issues none if and only if the slot exists
and `now - last_modified < ttl`.
(2) For every TTL, the smallest included, the same holds with the age the
code computes, `time.Since(last_modified)`, which is `now - last_modified`
kept within the range of a duration.
(3) On a hit the call returns the slot's descriptor, leaves the slot as it is
and performs no effect at all (no network call, no write).
(4) A read that fetched and did not fail leaves an artifact in the slot.
(5) Scenario: with TTL `T > 0` and a first read at `t0` that fetched
successfully and left the slot stamped `m`, the read at `t0 + T/2` fetches
nothing (and leaves the slot) and the read at `t0 + 2T` fetches exactly once
if and only if `t0 + T/2 - T < m` and `m <= t0 + T`; in particular whenever
the slot is stamped between `t0` and the next read. -/
theorem getCachedImage_fetches_iff_absent_or_expired :
    (∀ (r : localImageRepository) (o : Outside) (slot : Option FileInfo),
      minDuration < r.imageCacheDuration.ns →
      (Effect.httpGet r.imageUrl ∈ (GetCachedImage r o slot).effects ↔
        (slot = none ∨ ∃ f, slot = some f ∧ r.imageCacheDuration.ns ≤ o.now - f.modTime)) ∧
      (fetches (GetCachedImage r o slot).effects = 1 ↔
        (slot = none ∨ ∃ f, slot = some f ∧ r.imageCacheDuration.ns ≤ o.now - f.modTime)) ∧
      (fetches (GetCachedImage r o slot).effects = 0 ↔
        ∃ f, slot = some f ∧ o.now - f.modTime < r.imageCacheDuration.ns)) ∧
    (∀ (r : localImageRepository) (o : Outside) (slot : Option FileInfo),
      (Effect.httpGet r.imageUrl ∈ (GetCachedImage r o slot).effects ↔
        (slot = none ∨
          ∃ f, slot = some f ∧ r.imageCacheDuration.ns ≤ (timeSince o.now f.modTime).ns)) ∧
      (fetches (GetCachedImage r o slot).effects = 1 ↔
        (slot = none ∨
          ∃ f, slot = some f ∧ r.imageCacheDuration.ns ≤ (timeSince o.now f.modTime).ns)) ∧
      (fetches (GetCachedImage r o slot).effects = 0 ↔
        ∃ f, slot = some f ∧ (timeSince o.now f.modTime).ns < r.imageCacheDuration.ns)) ∧
    (∀ (r : localImageRepository) (o : Outside) (f : FileInfo),
      fetches (GetCachedImage r o (some f)).effects = 0 →
        GetCachedImage r o (some f) =
          ⟨.ok ⟨"/files/" ++ r.cachedImageName, f.modTime⟩, some f, []⟩) ∧
    (∀ (r : localImageRepository) (o : Outside) (slot : Option FileInfo),
      fetches (GetCachedImage r o slot).effects = 1 →
      (GetCachedImage r o slot).failed = false →
        ∃ f, (GetCachedImage r o slot).slot = some f) ∧
    (∀ (r : localImageRepository) (o₁ o₂ o₃ : Outside) (slot₀ : Option FileInfo) (t0 : Int)
      (f : FileInfo),
      0 < r.imageCacheDuration.ns →
      o₁.now = t0 →
      o₂.now = t0 + r.imageCacheDuration.ns / 2 →
      o₃.now = t0 + 2 * r.imageCacheDuration.ns →
      fetches (GetCachedImage r o₁ slot₀).effects = 1 →
      (GetCachedImage r o₁ slot₀).failed = false →
      (GetCachedImage r o₁ slot₀).slot = some f →
      ((fetches (GetCachedImage r o₂ (GetCachedImage r o₁ slot₀).slot).effects = 0 ∧
          (GetCachedImage r o₂ (GetCachedImage r o₁ slot₀).slot).slot =
            (GetCachedImage r o₁ slot₀).slot ∧
          fetches (GetCachedImage r o₃
            (GetCachedImage r o₂ (GetCachedImage r o₁ slot₀).slot).slot).effects = 1) ↔
        (t0 + r.imageCacheDuration.ns / 2 - r.imageCacheDuration.ns < f.modTime ∧
          f.modTime ≤ t0 + r.imageCacheDuration.ns))) := by
  have hitOf : ∀ (r : localImageRepository) (o : Outside) (f : FileInfo),
      fetches (GetCachedImage r o (some f)).effects = 0 →
        GetCachedImage r o (some f) =
          ⟨.ok ⟨"/files/" ++ r.cachedImageName, f.modTime⟩, some f, []⟩ := by
    intro r o f h0
    obtain ⟨g, hg, hlt⟩ := (getCachedImage_decision r o (some f)).2.2.1 h0
    cases hg
    exact getCachedImage_hit r o f hlt
  refine ⟨fun r o slot h => getCachedImage_decision_exact r o slot h,
    getCachedImage_decision, hitOf, ?_, ?_⟩
  · intro r o slot hf hok
    have hmiss : GetCachedImage r o slot = downloadNewImage r o slot := by
      apply getCachedImage_miss
      intro f hf'
      rcases ((getCachedImage_decision r o slot).2.1.1 hf) with h | ⟨g, hg, hle⟩
      · rw [h] at hf'; cases hf'
      · rw [hg] at hf'; cases hf'; exact hle
    rw [hmiss] at hok ⊢
    exact downloadNewImage_ok_slot r o slot hok
  · intro r o₁ o₂ o₃ slot₀ t0 f hT h1 h2 h3 hf hok hslot
    have hr := r.imageCacheDuration.inRange
    have hmin : minDuration < r.imageCacheDuration.ns := by
      have : minDuration < 0 := by decide
      omega
    rw [hslot]
    have d2 := getCachedImage_decision_exact r o₂ (some f) hmin
    have d3 := getCachedImage_decision_exact r o₃ (some f) hmin
    constructor
    · rintro ⟨h20, _, h31⟩
      have hit2 := hitOf r o₂ f h20
      rw [hit2] at h31
      obtain ⟨g, hg, hlt⟩ := d2.2.2.1 h20
      cases hg
      rcases d3.2.1.1 h31 with hn | ⟨g, hg, hle⟩
      · cases hn
      · cases hg
        constructor <;> omega
    · rintro ⟨hlo, hhi⟩
      have h20 : fetches (GetCachedImage r o₂ (some f)).effects = 0 :=
        d2.2.2.2 ⟨f, rfl, by omega⟩
      have hit2 := hitOf r o₂ f h20
      refine ⟨h20, by rw [hit2], ?_⟩
      rw [hit2]
      exact d3.2.1.2 (Or.inr ⟨f, rfl, by omega⟩)

theorem downloadNewImage_not200 (r : localImageRepository) (o : Outside)
    (slot : Option FileInfo) (statusCode : Nat) (body : List Nat)
    (hhttp : o.http = .response statusCode body) (hs : statusCode ≠ 200) :
    downloadNewImage r o slot =
      ⟨.error ("failed to download image: HTTP " ++ toString statusCode), slot,
        [.httpGet r.imageUrl]⟩ := by
  unfold downloadNewImage
  rw [hhttp]
  simp [hs]

/-- C2 (a failed fetch leaves the slot alone). When the source answers with a
status outside 200..299, `downloadNewImage` returns an error, performs no
file-system mutation and leaves the slot exactly as it was (same bytes, same
last-modified time, absent stays absent); and so does `GetCachedImage`
whenever the slot is absent or stale. -/
theorem downloadNewImage_non2xx_keeps_slot (r : localImageRepository) (o : Outside)
    (slot : Option FileInfo) (statusCode : Nat) (body : List Nat)
    (hhttp : o.http = .response statusCode body)
    (hs : ¬ (200 ≤ statusCode ∧ statusCode ≤ 299)) :
    ((downloadNewImage r o slot).failed = true ∧
      (downloadNewImage r o slot).slot = slot ∧
      slotWrites (downloadNewImage r o slot).effects = 0) ∧
    ((slot = none ∨
        ∃ f, slot = some f ∧ r.imageCacheDuration.ns ≤ (timeSince o.now f.modTime).ns) →
      (GetCachedImage r o slot).failed = true ∧
      (GetCachedImage r o slot).slot = slot ∧
      slotWrites (GetCachedImage r o slot).effects = 0) := by
  have h := downloadNewImage_not200 r o slot statusCode body hhttp (by omega)
  have hd : (downloadNewImage r o slot).failed = true ∧
      (downloadNewImage r o slot).slot = slot ∧
      slotWrites (downloadNewImage r o slot).effects = 0 := by
    rw [h]
    exact ⟨rfl, rfl, rfl⟩
  refine ⟨hd, fun hst => ?_⟩
  have e : GetCachedImage r o slot = downloadNewImage r o slot := by
    apply getCachedImage_miss
    intro f hf
    rcases hst with h0 | ⟨g, hg, hle⟩
    · rw [h0] at hf; cases hf
    · rw [hg] at hf; cases hf; exact hle
  rw [e]
  exact hd

/-- Witness for C2: an absent slot and a cached slot, both refreshed against a
source answering 404. -/
theorem downloadNewImage_non2xx_keeps_slot_witness :
    ((downloadNewImage sampleRepository sampleLaterRead (some ⟨[1, 2, 3], 1002⟩)).failed = true ∧
      (downloadNewImage sampleRepository sampleLaterRead (some ⟨[1, 2, 3], 1002⟩)).slot =
        some ⟨[1, 2, 3], 1002⟩ ∧
      slotWrites
        (downloadNewImage sampleRepository sampleLaterRead (some ⟨[1, 2, 3], 1002⟩)).effects = 0) ∧
    ((GetCachedImage sampleRepository sampleLaterRead none).failed = true ∧
      (GetCachedImage sampleRepository sampleLaterRead none).slot = none ∧
      slotWrites (GetCachedImage sampleRepository sampleLaterRead none).effects = 0) :=
  ⟨(downloadNewImage_non2xx_keeps_slot sampleRepository sampleLaterRead
      (some ⟨[1, 2, 3], 1002⟩) 404 [] rfl (by decide)).1,
    (downloadNewImage_non2xx_keeps_slot sampleRepository sampleLaterRead
      none 404 [] rfl (by decide)).2 (Or.inl rfl)⟩

/-- Witness for C1 as amended: the default repository (TTL ten minutes), a
stale slot and a fresh slot, and the scenario from an empty slot: a successful
first read at clock 1000 stamped 1002, then reads at 1000 + T/2 and 1000 + 2T. -/
theorem getCachedImage_fetches_iff_absent_or_expired_witness :
    (fetches (GetCachedImage sampleRepository sampleExpiredRead
      (some ⟨[1, 2, 3], 1002⟩)).effects = 1) ∧
    (GetCachedImage sampleRepository sampleLaterRead (some ⟨[1, 2, 3], 1002⟩) =
      ⟨.ok ⟨"/files/" ++ sampleRepository.cachedImageName, 1002⟩, some ⟨[1, 2, 3], 1002⟩, []⟩) ∧
    (∃ f, (GetCachedImage sampleRepository sampleRefresh none).slot = some f) ∧
    (fetches (GetCachedImage sampleRepository sampleHalfRead
        (GetCachedImage sampleRepository sampleRefresh none).slot).effects = 0 ∧
      (GetCachedImage sampleRepository sampleHalfRead
        (GetCachedImage sampleRepository sampleRefresh none).slot).slot =
          (GetCachedImage sampleRepository sampleRefresh none).slot ∧
      fetches (GetCachedImage sampleRepository sampleExpiredRead
        (GetCachedImage sampleRepository sampleHalfRead
          (GetCachedImage sampleRepository sampleRefresh none).slot).slot).effects = 1) :=
  ⟨((getCachedImage_fetches_iff_absent_or_expired.1 sampleRepository sampleExpiredRead
      (some ⟨[1, 2, 3], 1002⟩) (by decide)).2.1).2
      (Or.inr ⟨⟨[1, 2, 3], 1002⟩, rfl, by decide⟩),
    getCachedImage_fetches_iff_absent_or_expired.2.2.1 sampleRepository sampleLaterRead
      ⟨[1, 2, 3], 1002⟩ (by decide),
    getCachedImage_fetches_iff_absent_or_expired.2.2.2.1 sampleRepository sampleRefresh none
      (by decide) (by decide),
    (getCachedImage_fetches_iff_absent_or_expired.2.2.2.2 sampleRepository sampleRefresh
      sampleHalfRead sampleExpiredRead none 1000 ⟨[1, 2, 3], 1002⟩ (by decide) rfl
      (by decide) (by decide) (by decide) (by decide) (by decide)).2
      ⟨by decide, by decide⟩⟩

/-- Counterexample to C10 as stated: a successful refresh whose last write is
stamped 1002 by the file system and whose `time.Now()` reads 1003 returns a
descriptor with `CachedAt = 1003` while the slot's last-modified time is 1002,
and the next cache hit on that same artifact returns `CachedAt = 1002`: the
two descriptors differ. -/
theorem refresh_descriptor_differs_from_later_hit :
    (GetCachedImage sampleRepository sampleRefresh none).result =
      .ok ⟨"/files/current_image.jpg", 1003⟩ ∧
    (GetCachedImage sampleRepository sampleRefresh none).slot = some ⟨[1, 2, 3], 1002⟩ ∧
    fetches (GetCachedImage sampleRepository sampleLaterRead
      (GetCachedImage sampleRepository sampleRefresh none).slot).effects = 0 ∧
    (GetCachedImage sampleRepository sampleLaterRead
      (GetCachedImage sampleRepository sampleRefresh none).slot).result =
      .ok ⟨"/files/current_image.jpg", 1002⟩ ∧
    (GetCachedImage sampleRepository sampleLaterRead
      (GetCachedImage sampleRepository sampleRefresh none).slot).result ≠
      (GetCachedImage sampleRepository sampleRefresh none).result := by
  decide

theorem getCachedImage_cases (r : localImageRepository) (o : Outside)
    (slot : Option FileInfo) :
    (∃ f, slot = some f ∧ (timeSince o.now f.modTime).ns < r.imageCacheDuration.ns ∧
      GetCachedImage r o slot =
        ⟨.ok ⟨"/files/" ++ r.cachedImageName, f.modTime⟩, some f, []⟩) ∨
    ((slot = none ∨
        ∃ f, slot = some f ∧ r.imageCacheDuration.ns ≤ (timeSince o.now f.modTime).ns) ∧
      GetCachedImage r o slot = downloadNewImage r o slot) := by
  cases slot with
  | none => exact Or.inr ⟨Or.inl rfl, rfl⟩
  | some f =>
    by_cases hlt : (timeSince o.now f.modTime).ns < r.imageCacheDuration.ns
    · exact Or.inl ⟨f, rfl, hlt, getCachedImage_hit r o f hlt⟩
    · refine Or.inr ⟨Or.inr ⟨f, rfl, by omega⟩, ?_⟩
      apply getCachedImage_miss
      intro g hg
      cases hg
      omega

theorem downloadNewImage_ok (r : localImageRepository) (o : Outside)
    (slot : Option FileInfo) (d : ImageInfo)
    (h : (downloadNewImage r o slot).result = .ok d) :
    d = ⟨"/files/" ++ r.cachedImageName, o.savedAt⟩ := by
  unfold downloadNewImage at h
  split at h
  · cases h
  · split at h
    · cases h
    · split at h
      · cases h
      · split at h
        · cases h
        · simp only [Except.ok.injEq] at h
          exact h.symm

/-- C10, as the code has it. Every descriptor returned by `GetCachedImage`
has the path `/files/<slot name>`. Returned by a cache hit, its `CachedAt` is
the slot file's last-modified time at the moment of return (and the slot is
left as it is); returned by a successful refresh, its `CachedAt` is the clock
reading taken by `time.Now()` after the body was written. Consequently a
later cache hit on the artifact a refresh stored returns the same path and,
as `CachedAt`, the stored artifact's last-modified time; and any two cache
hits on one artifact return equal descriptors. -/
theorem getCachedImage_descriptor_timestamp :
    (∀ (r : localImageRepository) (o : Outside) (slot : Option FileInfo) (d : ImageInfo),
      (GetCachedImage r o slot).result = .ok d →
        d.Path = "/files/" ++ r.cachedImageName ∧
        ((fetches (GetCachedImage r o slot).effects = 0 ∧
            ∃ f, slot = some f ∧ (GetCachedImage r o slot).slot = some f ∧
              d.CachedAt = f.modTime) ∨
          (fetches (GetCachedImage r o slot).effects = 1 ∧ d.CachedAt = o.savedAt))) ∧
    (∀ (r : localImageRepository) (o o' : Outside) (slot : Option FileInfo) (d d' : ImageInfo),
      (GetCachedImage r o slot).result = .ok d →
      fetches (GetCachedImage r o' (GetCachedImage r o slot).slot).effects = 0 →
      (GetCachedImage r o' (GetCachedImage r o slot).slot).result = .ok d' →
        d'.Path = d.Path ∧
        ∃ f, (GetCachedImage r o slot).slot = some f ∧ d'.CachedAt = f.modTime) ∧
    (∀ (r : localImageRepository) (o o' : Outside) (f : FileInfo),
      fetches (GetCachedImage r o (some f)).effects = 0 →
      fetches (GetCachedImage r o' (some f)).effects = 0 →
        (GetCachedImage r o (some f)).result = (GetCachedImage r o' (some f)).result) := by
  have first : ∀ (r : localImageRepository) (o : Outside) (slot : Option FileInfo)
      (d : ImageInfo), (GetCachedImage r o slot).result = .ok d →
        d.Path = "/files/" ++ r.cachedImageName ∧
        ((fetches (GetCachedImage r o slot).effects = 0 ∧
            ∃ f, slot = some f ∧ (GetCachedImage r o slot).slot = some f ∧
              d.CachedAt = f.modTime) ∨
          (fetches (GetCachedImage r o slot).effects = 1 ∧ d.CachedAt = o.savedAt)) := by
    intro r o slot d h
    rcases getCachedImage_cases r o slot with ⟨f, hs, _, e⟩ | ⟨_, e⟩
    · rw [e] at h ⊢
      simp only [Except.ok.injEq] at h
      subst h
      exact ⟨rfl, Or.inl ⟨rfl, f, hs, rfl, rfl⟩⟩
    · rw [e] at h ⊢
      have hd := downloadNewImage_ok r o slot d h
      subst hd
      exact ⟨rfl, Or.inr ⟨fetches_downloadNewImage r o slot, rfl⟩⟩
  have hitOf : ∀ (r : localImageRepository) (o : Outside) (slot : Option FileInfo),
      fetches (GetCachedImage r o slot).effects = 0 →
      ∃ f, slot = some f ∧ GetCachedImage r o slot =
        ⟨.ok ⟨"/files/" ++ r.cachedImageName, f.modTime⟩, some f, []⟩ := by
    intro r o slot h0
    rcases getCachedImage_cases r o slot with ⟨f, hs, _, e⟩ | ⟨_, e⟩
    · exact ⟨f, hs, e⟩
    · rw [e, fetches_downloadNewImage] at h0
      cases h0
  refine ⟨first, ?_, ?_⟩
  · intro r o o' slot d d' h h0 h'
    obtain ⟨f, hs, e⟩ := hitOf r o' _ h0
    rw [e] at h'
    simp only [Except.ok.injEq] at h'
    subst h'
    exact ⟨(first r o slot d h).1.symm, f, hs, rfl⟩
  · intro r o o' f h0 h0'
    obtain ⟨g, hg, e⟩ := hitOf r o (some f) h0
    obtain ⟨g', hg', e'⟩ := hitOf r o' (some f) h0'
    cases hg
    cases hg'
    rw [e, e']

/-- Witness for C10 as amended: the refresh `sampleRefresh` of an empty slot
followed by the cache hit `sampleLaterRead`. -/
theorem getCachedImage_descriptor_timestamp_witness :
    (("/files/current_image.jpg" : String) = "/files/" ++ sampleRepository.cachedImageName ∧
      ((fetches (GetCachedImage sampleRepository sampleRefresh none).effects = 0 ∧
          ∃ f, none = some f ∧
            (GetCachedImage sampleRepository sampleRefresh none).slot = some f ∧
            (1003 : Int) = f.modTime) ∨
        (fetches (GetCachedImage sampleRepository sampleRefresh none).effects = 1 ∧
          (1003 : Int) = sampleRefresh.savedAt))) ∧
    (("/files/current_image.jpg" : String) = "/files/current_image.jpg" ∧
      ∃ f, (GetCachedImage sampleRepository sampleRefresh none).slot = some f ∧
        (1002 : Int) = f.modTime) ∧
    ((GetCachedImage sampleRepository sampleLaterRead (some ⟨[1, 2, 3], 1002⟩)).result =
      (GetCachedImage sampleRepository sampleHalfRead (some ⟨[1, 2, 3], 1002⟩)).result) :=
  ⟨getCachedImage_descriptor_timestamp.1 sampleRepository sampleRefresh none
      ⟨"/files/current_image.jpg", 1003⟩ (by decide),
    getCachedImage_descriptor_timestamp.2.1 sampleRepository sampleRefresh sampleLaterRead
      none ⟨"/files/current_image.jpg", 1003⟩ ⟨"/files/current_image.jpg", 1002⟩
      (by decide) (by decide) (by decide),
    getCachedImage_descriptor_timestamp.2.2 sampleRepository sampleLaterRead sampleHalfRead
      ⟨[1, 2, 3], 1002⟩ (by decide) (by decide)⟩

/-- C9, evaluated where the code departs from it: `CACHE_DURATION_MINUTES=153722868`
is the decimal text of a positive integer that `strconv.Atoi` accepts, yet
`time.Duration(minutes) * time.Minute` overflows `int64` and the TTL returned
is negative, not 153722868 minutes; with `9007199254740992` the TTL returned
is zero. -/
theorem getCacheDuration_overflow :
    Go.Atoi (Go.bytes "153722868") = .ok 153722868 ∧
    (getCacheDuration (Go.bytes "153722868")).ns = -9223371993709551616 ∧
    (getCacheDuration (Go.bytes "153722868")).ns ≠ 153722868 * minute ∧
    ¬ (0 < (getCacheDuration (Go.bytes "153722868")).ns) ∧
    Go.Atoi (Go.bytes "9007199254740992") = .ok 9007199254740992 ∧
    (getCacheDuration (Go.bytes "9007199254740992")).ns = 0 := by
  decide

theorem downloadNewImage_keeps_slot_before_write (r : localImageRepository) (o : Outside)
    (slot : Option FileInfo)
    (h : (∃ msg, o.http = .transportError msg) ∨
      (∃ statusCode body, o.http = .response statusCode body ∧ statusCode ≠ 200) ∨
      (∃ msg, o.createErr = some msg)) :
    (downloadNewImage r o slot).failed = true ∧
    (downloadNewImage r o slot).slot = slot := by
  rcases h with ⟨msg, h⟩ | ⟨statusCode, body, h, hs⟩ | ⟨msg, h⟩
  · unfold downloadNewImage
    rw [h]
    exact ⟨rfl, rfl⟩
  · rw [downloadNewImage_not200 r o slot statusCode body h hs]
    exact ⟨rfl, rfl⟩
  · unfold downloadNewImage
    rw [h]
    split
    · exact ⟨rfl, rfl⟩
    · split
      · exact ⟨rfl, rfl⟩
      · exact ⟨rfl, rfl⟩

theorem downloadNewImage_copy_failure (r : localImageRepository) (o : Outside)
    (slot : Option FileInfo) (body : List Nat) (written : Nat) (msg : String)
    (hhttp : o.http = .response 200 body) (hcreate : o.createErr = none)
    (hcopy : o.copyErr = some (written, msg)) :
    (downloadNewImage r o slot).result = .error ("failed to save image: " ++ msg) ∧
    (downloadNewImage r o slot).slot =
      some (fileWrite ⟨[], o.createdAt⟩ (body.take written) o.writtenAt) := by
  unfold downloadNewImage
  rw [hhttp]
  simp only [ne_eq, not_true_eq_false, if_false]
  rw [hcreate]
  simp only
  rw [hcopy]
  exact ⟨rfl, rfl⟩

/-- C11, evaluated where the code departs from it. The slot holds the
artifact `[1, 2, 3]` stamped 1002 and is stale; the source answers 200 with
four bytes and `io.Copy` fails after two of them. `downloadNewImage` (and
`GetCachedImage`, which calls it) returns the error `failed to save image`,
yet the slot now holds the two streamed bytes with a fresh last-modified
time: `os.Create` truncated the previous artifact before the body was
streamed. The next read inside the TTL is a cache hit, without any fetch, on
that partly written artifact. -/
theorem downloadNewImage_copy_failure_replaces_artifact :
    (downloadNewImage sampleRepository sampleBrokenRefresh (some ⟨[1, 2, 3], 1002⟩)).result =
      .error "failed to save image: unexpected EOF" ∧
    (downloadNewImage sampleRepository sampleBrokenRefresh (some ⟨[1, 2, 3], 1002⟩)).slot =
      some ⟨[4, 5], 1200000001002⟩ ∧
    (GetCachedImage sampleRepository sampleBrokenRefresh (some ⟨[1, 2, 3], 1002⟩)).failed =
      true ∧
    (GetCachedImage sampleRepository sampleBrokenRefresh (some ⟨[1, 2, 3], 1002⟩)).slot =
      some ⟨[4, 5], 1200000001002⟩ ∧
    (GetCachedImage sampleRepository sampleBrokenRefresh (some ⟨[1, 2, 3], 1002⟩)).slot ≠
      some ⟨[1, 2, 3], 1002⟩ ∧
    (GetCachedImage sampleRepository sampleReadAfterBrokenRefresh
      (GetCachedImage sampleRepository sampleBrokenRefresh (some ⟨[1, 2, 3], 1002⟩)).slot).result =
      .ok ⟨"/files/current_image.jpg", 1200000001002⟩ ∧
    (GetCachedImage sampleRepository sampleReadAfterBrokenRefresh
      (GetCachedImage sampleRepository sampleBrokenRefresh (some ⟨[1, 2, 3], 1002⟩)).slot).effects =
      [] ∧
    (GetCachedImage sampleRepository sampleReadAfterBrokenRefresh
      (GetCachedImage sampleRepository sampleBrokenRefresh (some ⟨[1, 2, 3], 1002⟩)).slot).slot =
      some ⟨[4, 5], 1200000001002⟩ := by
  decide

end ImageCache

section TodoApi

open TodoService

theorem connectLoop_no_success (st : Store) (n : Nat) :
    ∀ (made : Nat) (err : Bool),
      (∀ j, made < j → j ≤ made + n → ¬ (st.connect j = true ∧ st.ping j = true)) →
      connectLoop st n made err =
        (made + n, if n = 0 then err else !(st.connect (made + n))) := by
  induction n with
  | zero => intro made err _; simp [connectLoop]
  | succ n ih =>
    intro made err h
    have h1 := h (made + 1) (by omega) (by omega)
    have hrest : ∀ j, made + 1 < j → j ≤ made + 1 + n →
        ¬ (st.connect j = true ∧ st.ping j = true) :=
      fun j hj hj' => h j (by omega) (by omega)
    have e : made + 1 + n = made + (n + 1) := by omega
    unfold connectLoop
    by_cases hc : st.connect (made + 1) = true
    · have hp : st.ping (made + 1) = false := by
        cases hpv : st.ping (made + 1) with
        | false => rfl
        | true => exact absurd ⟨hc, hpv⟩ h1
      rw [if_pos hc, hp, ih (made + 1) false hrest, e]
      by_cases hn : n = 0
      · subst hn; simp [hc]
      · simp [hn]
    · rw [if_neg hc, ih (made + 1) true hrest, e]
      by_cases hn : n = 0
      · subst hn; simp [hc]
      · simp [hn]

theorem connectLoop_first_success (st : Store) (n : Nat) :
    ∀ (made : Nat) (err : Bool) (k : Nat), made < k → k ≤ made + n →
      st.connect k = true → st.ping k = true →
      (∀ j, made < j → j < k → ¬ (st.connect j = true ∧ st.ping j = true)) →
      connectLoop st n made err = (k, false) := by
  induction n with
  | zero => intro made err k h1 h2; omega
  | succ n ih =>
    intro made err k h1 h2 hc hp hfirst
    unfold connectLoop
    by_cases hk : k = made + 1
    · subst hk
      rw [if_pos hc, if_pos hp]
    · have hne := hfirst (made + 1) (by omega) (by omega)
      have hrest : ∀ j, made + 1 < j → j < k →
          ¬ (st.connect j = true ∧ st.ping j = true) :=
        fun j hj hj' => hfirst j (by omega) hj'
      by_cases hc1 : st.connect (made + 1) = true
      · have hp1 : st.ping (made + 1) = false := by
          cases hpv : st.ping (made + 1) with
          | false => rfl
          | true => exact absurd ⟨hc1, hpv⟩ hne
        rw [if_pos hc1, hp1]
        exact ih (made + 1) false k (by omega) (by omega) hc hp hrest
      · rw [if_neg hc1]
        exact ih (made + 1) true k (by omega) (by omega) hc hp hrest

theorem connectLoop_le (st : Store) (n : Nat) :
    ∀ (made : Nat) (err : Bool), (connectLoop st n made err).1 ≤ made + n := by
  induction n with
  | zero => intro made err; simp [connectLoop]
  | succ n ih =>
    intro made err
    unfold connectLoop
    split
    · split
      · simp
      · have := ih (made + 1) false
        omega
    · have := ih (made + 1) true
      omega

theorem initDB_of_loop (env : DbEnv) (st : Store) (henv : env.complete) (a : Nat) (err : Bool)
    (h : connectLoop st maxRetries 0 false = (a, err)) :
    (initDB env st).attempts = a ∧
    ((initDB env st).result = .connected ↔
      (err = false ∧ st.finalPing = true ∧ st.createTable = true)) := by
  obtain ⟨h1, h2, h3, h4⟩ := henv
  unfold initDB
  rw [if_neg (by simp [h1, h2, h3, h4]), h]
  cases err <;> cases hf : st.finalPing <;> cases hc : st.createTable <;> simp

/-- Counterexample to C7 as stated: with a store that accepts every
connection, fails all ten in-loop probes and answers the probe made after the
loop, `initDB` returns a connection after 10 attempts although no attempt had
both connection and probe succeed; and with a store whose first attempt
succeeds and whose next probe fails, `initDB` terminates fatally after one
attempt although attempt 1 had both succeed. -/
theorem initDB_fatal_not_iff_no_attempt_succeeded :
    ((initDB sampleDbEnv storeUpAfterLoop).result = .connected ∧
      (initDB sampleDbEnv storeUpAfterLoop).attempts = 10 ∧
      ∀ j, 1 ≤ j → j ≤ 10 →
        ¬ (storeUpAfterLoop.connect j = true ∧ storeUpAfterLoop.ping j = true)) ∧
    ((initDB sampleDbEnv storeDownAfterFirst).result ≠ .connected ∧
      (initDB sampleDbEnv storeDownAfterFirst).attempts = 1 ∧
      storeDownAfterFirst.connect 1 = true ∧ storeDownAfterFirst.ping 1 = true) := by
  refine ⟨⟨by decide, by decide, ?_⟩, by decide, by decide, rfl, rfl⟩
  intro j _ _ h
  exact absurd h.2 (by simp [storeUpAfterLoop])

/-- C7, as the code has it. With the four `POSTGRES_*` variables set, `initDB`
makes at most 10 attempts and stops at the first attempt `k` on which both
the connection and the probe succeed, having made exactly `k` attempts; when
no attempt has both, it makes exactly 10. It then probes once more (unless
the last connection failed) and creates the table: after stopping at attempt
`k` it returns a connection if and only if that extra probe and the table
creation succeed, and terminates fatally otherwise; after ten attempts
without success it terminates fatally unless the tenth connection succeeded
and the extra probe and the table creation succeed. -/
theorem initDB_attempts (env : DbEnv) (st : Store) (henv : env.complete) :
    (initDB env st).attempts ≤ 10 ∧
    (∀ k, 1 ≤ k → k ≤ 10 → st.connect k = true → st.ping k = true →
      (∀ j, 1 ≤ j → j < k → ¬ (st.connect j = true ∧ st.ping j = true)) →
      (initDB env st).attempts = k ∧
      ((initDB env st).result = .connected ↔
        (st.finalPing = true ∧ st.createTable = true))) ∧
    ((∀ j, 1 ≤ j → j ≤ 10 → ¬ (st.connect j = true ∧ st.ping j = true)) →
      (initDB env st).attempts = 10 ∧
      ((initDB env st).result = .connected ↔
        (st.connect 10 = true ∧ st.finalPing = true ∧ st.createTable = true))) := by
  refine ⟨?_, ?_, ?_⟩
  · have h := initDB_of_loop env st henv _ _ rfl
    rw [h.1]
    have := connectLoop_le st maxRetries 0 false
    simpa [maxRetries] using this
  · intro k hk1 hk2 hc hp hfirst
    have hl := connectLoop_first_success st maxRetries 0 false k (by omega)
      (by simp [maxRetries]; omega) hc hp (fun j hj hj' => hfirst j (by omega) hj')
    have h := initDB_of_loop env st henv _ _ hl
    refine ⟨h.1, ?_⟩
    rw [h.2]
    simp
  · intro hnone
    have hl := connectLoop_no_success st maxRetries 0 false
      (fun j hj hj' => hnone j (by omega) (by simpa [maxRetries] using hj'))
    have h := initDB_of_loop env st henv _ _ hl
    refine ⟨by simpa [maxRetries] using h.1, ?_⟩
    rw [h.2]
    simp [maxRetries]

/-- Witness for C7 as amended: a store failing attempts 1-3 and up from the
4th gives a connection after exactly 4 attempts; a store that always fails
gives fatal termination after exactly 10 attempts. -/
theorem initDB_attempts_witness :
    ((initDB sampleDbEnv storeUpAtFourth).attempts = 4 ∧
      (initDB sampleDbEnv storeUpAtFourth).result = .connected) ∧
    ((initDB sampleDbEnv storeAlwaysDown).attempts = 10 ∧
      (initDB sampleDbEnv storeAlwaysDown).result ≠ .connected) :=
  ⟨⟨((initDB_attempts sampleDbEnv storeUpAtFourth (by decide)).2.1 4 (by decide) (by decide)
        rfl rfl (by intro j h1 h2 h; have := h.1; simp [storeUpAtFourth] at this; omega)).1,
      ((initDB_attempts sampleDbEnv storeUpAtFourth (by decide)).2.1 4 (by decide) (by decide)
        rfl rfl (by intro j h1 h2 h; have := h.1; simp [storeUpAtFourth] at this; omega)).2.2
        ⟨rfl, rfl⟩⟩,
    ⟨((initDB_attempts sampleDbEnv storeAlwaysDown (by decide)).2.2
        (by intro j _ _ h; exact absurd h.1 (by simp [storeAlwaysDown]))).1,
      fun hc => absurd (((initDB_attempts sampleDbEnv storeAlwaysDown (by decide)).2.2
        (by intro j _ _ h; exact absurd h.1 (by simp [storeAlwaysDown]))).2.1 hc).1
        (by simp [storeAlwaysDown])⟩⟩

theorem sendNatsMessage_cases (subject : String) (todo : TodoService.Todo) (bus : Bus) :
    sendNatsMessage subject todo bus = [.sendNatsMessage subject todo] ∨
    sendNatsMessage subject todo bus =
      [.sendNatsMessage subject todo, .natsConnect bus.natsURL] ∨
    ∃ data, sendNatsMessage subject todo bus =
      [.sendNatsMessage subject todo, .natsConnect bus.natsURL,
        .natsPublish subject data bus.publishErr] := by
  unfold sendNatsMessage
  by_cases h : bus.natsURL = []
  · simp [h]
  · rw [if_neg h]
    cases bus.connectErr with
    | some e => simp
    | none =>
      cases hm : bus.marshal todo with
      | error e => simp
      | ok data => exact Or.inr (Or.inr ⟨data, rfl⟩)

theorem publishesOnlyAfterCommit_of_commit (subject : String) (t : TodoService.Todo)
    (bus : Bus) (first : TodoService.Effect) (resp : Response)
    (hfirst : (∃ task, first = .addTodo task (.ok t)) ∨
      (∃ id, first = .markTodoDone id (.ok t))) :
    publishesOnlyAfterCommit subject
      (first :: (sendNatsMessage subject t bus ++ [.respond resp])) := by
  rcases hfirst with ⟨task, rfl⟩ | ⟨id, rfl⟩ <;>
  rcases sendNatsMessage_cases subject t bus with h | h | ⟨data, h⟩ <;>
  · rw [h]
    simp [publishesOnlyAfterCommit, storeReturns, natsCalls, committed, eventsFollowCommit]

theorem publishesOnlyAfterCommit_of_respond (subject : String) (resp : Response) :
    publishesOnlyAfterCommit subject [.respond resp] := by
  simp [publishesOnlyAfterCommit, storeReturns, natsCalls, committed, eventsFollowCommit,
    publishes]

theorem publishesOnlyAfterCommit_cons_httpGet (subject : String) (url : List Nat)
    (tr : List TodoService.Effect) (h : publishesOnlyAfterCommit subject tr) :
    publishesOnlyAfterCommit subject (.httpGet url :: tr) := by
  simpa [publishesOnlyAfterCommit, storeReturns, natsCalls, committed, eventsFollowCommit,
    publishes] using h

theorem handlers_trace_discipline :
    (∀ (bind : Except String (List Nat)) (repo : TodoRepository) (bus : Bus),
      publishesOnlyAfterCommit "todo.created" (createTodo bind repo bus)) ∧
    (∀ (src : ArticleSource) (repo : TodoRepository) (bus : Bus),
      publishesOnlyAfterCommit "todo.created" (createRandomTodo src repo bus)) ∧
    (∀ (idParam : List Nat) (repo : TodoRepository) (bus : Bus),
      publishesOnlyAfterCommit "todo.updated" (TodoService.markTodoDone idParam repo bus)) := by
  refine ⟨?_, ?_, ?_⟩
  · intro bind repo bus
    unfold createTodo
    split
    · exact publishesOnlyAfterCommit_of_respond _ _
    · split
      · exact publishesOnlyAfterCommit_of_respond _ _
      · split
        · simp [publishesOnlyAfterCommit, storeReturns, natsCalls, committed,
            eventsFollowCommit, publishes]
        · exact publishesOnlyAfterCommit_of_commit _ _ _ _ _ (Or.inl ⟨_, rfl⟩)
  · intro src repo bus
    unfold createRandomTodo
    split
    · exact publishesOnlyAfterCommit_of_respond _ _
    · split
      · exact publishesOnlyAfterCommit_of_respond _ _
      · split
        · simp [publishesOnlyAfterCommit, storeReturns, natsCalls, committed,
            eventsFollowCommit, publishes]
        · apply publishesOnlyAfterCommit_cons_httpGet
          split
          · exact publishesOnlyAfterCommit_of_respond _ _
          · split
            · exact publishesOnlyAfterCommit_of_respond _ _
            · split
              · exact publishesOnlyAfterCommit_of_respond _ _
              · split
                · simp [publishesOnlyAfterCommit, storeReturns, natsCalls, committed,
                    eventsFollowCommit, publishes]
                · exact publishesOnlyAfterCommit_of_commit _ _ _ _ _ (Or.inl ⟨_, rfl⟩)
  · intro idParam repo bus
    unfold TodoService.markTodoDone
    split
    · exact publishesOnlyAfterCommit_of_respond _ _
    · split
      · exact publishesOnlyAfterCommit_of_respond _ _
      · split
        · simp [publishesOnlyAfterCommit, storeReturns, natsCalls, committed,
            eventsFollowCommit, publishes]
        · exact publishesOnlyAfterCommit_of_commit _ _ _ _ _ (Or.inr ⟨_, rfl⟩)

theorem commit_trace (subject : String) (t : TodoService.Todo) (bus : Bus)
    (resp : Response) :
    (∀ task, storeReturns (.addTodo task (.ok t) ::
        (sendNatsMessage subject t bus ++ [.respond resp])) = [.ok t] ∧
      natsCalls (.addTodo task (.ok t) ::
        (sendNatsMessage subject t bus ++ [.respond resp])) = [(subject, t)]) ∧
    (∀ id, storeReturns (.markTodoDone id (.ok t) ::
        (sendNatsMessage subject t bus ++ [.respond resp])) = [.ok t] ∧
      natsCalls (.markTodoDone id (.ok t) ::
        (sendNatsMessage subject t bus ++ [.respond resp])) = [(subject, t)]) := by
  rcases sendNatsMessage_cases subject t bus with h | h | ⟨data, h⟩ <;>
  · rw [h]
    exact ⟨fun _ => ⟨rfl, rfl⟩, fun _ => ⟨rfl, rfl⟩⟩

theorem createTodo_accepted (requestTask task : List Nat) (repo : TodoRepository) (bus : Bus)
    (hv : validateAndLogTask requestTask = .ok task) :
    storeReturns (createTodo (.ok requestTask) repo bus) = [repo.AddTodo task] ∧
    (∀ t, repo.AddTodo task = .ok t →
      natsCalls (createTodo (.ok requestTask) repo bus) = [("todo.created", t)]) ∧
    (∀ e, repo.AddTodo task = .error e →
      natsCalls (createTodo (.ok requestTask) repo bus) = [] ∧
      publishes (createTodo (.ok requestTask) repo bus) = []) := by
  unfold createTodo
  simp only [hv]
  cases hres : repo.AddTodo task with
  | error e =>
    simp only
    exact ⟨rfl, fun t ht => (by cases ht), fun e' _ => ⟨rfl, rfl⟩⟩
  | ok t =>
    simp only
    have h := (commit_trace "todo.created" t bus ⟨201, .todo t⟩).1 task
    refine ⟨h.1, fun t' ht => ?_, fun e he => (by cases he)⟩
    cases ht
    exact h.2

theorem createRandomTodo_accepted (src : ArticleSource) (url task : List Nat)
    (repo : TodoRepository) (bus : Bus)
    (h1 : src.randomArticleURL ≠ []) (h2 : src.requestErr = none)
    (h3 : src.response = .ok (200, url)) (h4 : url ≠ src.randomArticleURL)
    (h5 : validateAndLogTask (Go.bytes "Read: " ++ url) = .ok task) :
    storeReturns (createRandomTodo src repo bus) = [repo.AddTodo task] ∧
    (∀ t, repo.AddTodo task = .ok t →
      natsCalls (createRandomTodo src repo bus) = [("todo.created", t)]) ∧
    (∀ e, repo.AddTodo task = .error e →
      natsCalls (createRandomTodo src repo bus) = [] ∧
      publishes (createRandomTodo src repo bus) = []) := by
  unfold createRandomTodo
  rw [if_neg h1, h2]
  simp only [h3, ne_eq, not_true_eq_false, if_false, if_neg h4, h5]
  cases hres : repo.AddTodo task with
  | error e =>
    simp only
    exact ⟨rfl, fun t ht => (by cases ht), fun e' _ => ⟨rfl, rfl⟩⟩
  | ok t =>
    simp only
    have h := (commit_trace "todo.created" t bus ⟨201, .keyed "New todo created" t⟩).1 task
    refine ⟨h.1, fun t' ht => ?_, fun e he => (by cases he)⟩
    cases ht
    exact h.2

theorem markTodoDone_accepted (idParam : List Nat) (id : Int) (repo : TodoRepository)
    (bus : Bus) (h1 : idParam ≠ []) (h2 : Go.Atoi idParam = .ok id) :
    storeReturns (TodoService.markTodoDone idParam repo bus) = [repo.markTodoDone id] ∧
    (∀ t, repo.markTodoDone id = .ok t →
      natsCalls (TodoService.markTodoDone idParam repo bus) = [("todo.updated", t)]) ∧
    (∀ e, repo.markTodoDone id = .error e →
      natsCalls (TodoService.markTodoDone idParam repo bus) = [] ∧
      publishes (TodoService.markTodoDone idParam repo bus) = []) := by
  unfold TodoService.markTodoDone
  rw [if_neg h1]
  simp only [h2]
  cases hres : repo.markTodoDone id with
  | error e =>
    simp only
    exact ⟨rfl, fun t ht => (by cases ht), fun e' _ => ⟨rfl, rfl⟩⟩
  | ok t =>
    simp only
    have h := (commit_trace "todo.updated" t bus ⟨200, .keyed "Todo updated" t⟩).2 id
    refine ⟨h.1, fun t' ht => ?_, fun e he => (by cases he)⟩
    cases ht
    exact h.2

theorem createTodo_rejected (bind : Except String (List Nat)) (repo : TodoRepository)
    (bus : Bus)
    (hrej : ∀ requestTask task,
      ¬ (bind = .ok requestTask ∧ validateAndLogTask requestTask = .ok task)) :
    storeReturns (createTodo bind repo bus) = [] ∧
    natsCalls (createTodo bind repo bus) = [] ∧
    publishes (createTodo bind repo bus) = [] := by
  cases bind with
  | error e => exact ⟨rfl, rfl, rfl⟩
  | ok requestTask =>
    cases hv : validateAndLogTask requestTask with
    | error resp =>
      unfold createTodo
      simp only [hv]
      exact ⟨rfl, rfl, rfl⟩
    | ok task => exact absurd ⟨rfl, hv⟩ (hrej requestTask task)

theorem markTodoDone_rejected (idParam : List Nat) (repo : TodoRepository) (bus : Bus)
    (hrej : ∀ id, ¬ (idParam ≠ [] ∧ Go.Atoi idParam = .ok id)) :
    storeReturns (TodoService.markTodoDone idParam repo bus) = [] ∧
    natsCalls (TodoService.markTodoDone idParam repo bus) = [] ∧
    publishes (TodoService.markTodoDone idParam repo bus) = [] := by
  unfold TodoService.markTodoDone
  by_cases h1 : idParam = []
  · rw [if_pos h1]
    exact ⟨rfl, rfl, rfl⟩
  · rw [if_neg h1]
    cases h2 : Go.Atoi idParam with
    | error e => exact ⟨rfl, rfl, rfl⟩
    | ok id => exact absurd ⟨h1, h2⟩ (hrej id)

theorem createRandomTodo_rejected (src : ArticleSource) (repo : TodoRepository) (bus : Bus)
    (hrej : ∀ url task,
      ¬ (src.randomArticleURL ≠ [] ∧ src.requestErr = none ∧ src.response = .ok (200, url) ∧
        url ≠ src.randomArticleURL ∧
        validateAndLogTask (Go.bytes "Read: " ++ url) = .ok task)) :
    storeReturns (createRandomTodo src repo bus) = [] ∧
    natsCalls (createRandomTodo src repo bus) = [] ∧
    publishes (createRandomTodo src repo bus) = [] := by
  unfold createRandomTodo
  by_cases h1 : src.randomArticleURL = []
  · rw [if_pos h1]
    exact ⟨rfl, rfl, rfl⟩
  rw [if_neg h1]
  cases h2 : src.requestErr with
  | some e => exact ⟨rfl, rfl, rfl⟩
  | none =>
    cases h3 : src.response with
    | error e => exact ⟨rfl, rfl, rfl⟩
    | ok p =>
      obtain ⟨statusCode, url⟩ := p
      simp only
      by_cases hs : statusCode ≠ 200
      · rw [if_pos hs]
        exact ⟨rfl, rfl, rfl⟩
      rw [if_neg hs]
      by_cases h4 : url = src.randomArticleURL
      · rw [if_pos h4]
        exact ⟨rfl, rfl, rfl⟩
      rw [if_neg h4]
      cases h5 : validateAndLogTask (Go.bytes "Read: " ++ url) with
      | error resp => exact ⟨rfl, rfl, rfl⟩
      | ok task =>
        have hs' : statusCode = 200 := by
          by_contra hne
          exact hs hne
        subst hs'
        exact absurd ⟨h1, h2, h3, h4, h5⟩ (hrej url task)

/-- C3 (publish only after the store committed). In `createTodo`,
`createRandomTodo` and `markTodoDone`, for every request, every behaviour of
the store and every state of the message bus:
(1) the trace of the run keeps the publish-on-mutation discipline: at most
one store operation, `sendNatsMessage` called once per record a successful
store operation returned and never before it, nothing published when no
store operation succeeded;
(2) when the request is accepted, the one store operation of the run is
`AddTodo` (`markTodoDone`) on the task (id) of the request; when it returns a
record without error, `sendNatsMessage` is called exactly once, on the
handler's subject, with that record; when it returns an error,
`sendNatsMessage` is not called and nothing is published;
(3) when the request is rejected before the store is reached, no store
operation is made, `sendNatsMessage` is not called and nothing is published. -/
theorem handlers_publish_only_after_commit :
    (∀ (bind : Except String (List Nat)) (repo : TodoRepository) (bus : Bus),
      publishesOnlyAfterCommit "todo.created" (createTodo bind repo bus) ∧
      (∀ requestTask task, bind = .ok requestTask →
        validateAndLogTask requestTask = .ok task →
        storeReturns (createTodo bind repo bus) = [repo.AddTodo task] ∧
        (∀ t, repo.AddTodo task = .ok t →
          natsCalls (createTodo bind repo bus) = [("todo.created", t)]) ∧
        (∀ e, repo.AddTodo task = .error e →
          natsCalls (createTodo bind repo bus) = [] ∧
          publishes (createTodo bind repo bus) = [])) ∧
      ((∀ requestTask task,
          ¬ (bind = .ok requestTask ∧ validateAndLogTask requestTask = .ok task)) →
        storeReturns (createTodo bind repo bus) = [] ∧
        natsCalls (createTodo bind repo bus) = [] ∧
        publishes (createTodo bind repo bus) = [])) ∧
    (∀ (src : ArticleSource) (repo : TodoRepository) (bus : Bus),
      publishesOnlyAfterCommit "todo.created" (createRandomTodo src repo bus) ∧
      (∀ url task, src.randomArticleURL ≠ [] → src.requestErr = none →
        src.response = .ok (200, url) → url ≠ src.randomArticleURL →
        validateAndLogTask (Go.bytes "Read: " ++ url) = .ok task →
        storeReturns (createRandomTodo src repo bus) = [repo.AddTodo task] ∧
        (∀ t, repo.AddTodo task = .ok t →
          natsCalls (createRandomTodo src repo bus) = [("todo.created", t)]) ∧
        (∀ e, repo.AddTodo task = .error e →
          natsCalls (createRandomTodo src repo bus) = [] ∧
          publishes (createRandomTodo src repo bus) = [])) ∧
      ((∀ url task,
          ¬ (src.randomArticleURL ≠ [] ∧ src.requestErr = none ∧
            src.response = .ok (200, url) ∧ url ≠ src.randomArticleURL ∧
            validateAndLogTask (Go.bytes "Read: " ++ url) = .ok task)) →
        storeReturns (createRandomTodo src repo bus) = [] ∧
        natsCalls (createRandomTodo src repo bus) = [] ∧
        publishes (createRandomTodo src repo bus) = [])) ∧
    (∀ (idParam : List Nat) (repo : TodoRepository) (bus : Bus),
      publishesOnlyAfterCommit "todo.updated" (TodoService.markTodoDone idParam repo bus) ∧
      (∀ id, idParam ≠ [] → Go.Atoi idParam = .ok id →
        storeReturns (TodoService.markTodoDone idParam repo bus) = [repo.markTodoDone id] ∧
        (∀ t, repo.markTodoDone id = .ok t →
          natsCalls (TodoService.markTodoDone idParam repo bus) = [("todo.updated", t)]) ∧
        (∀ e, repo.markTodoDone id = .error e →
          natsCalls (TodoService.markTodoDone idParam repo bus) = [] ∧
          publishes (TodoService.markTodoDone idParam repo bus) = [])) ∧
      ((∀ id, ¬ (idParam ≠ [] ∧ Go.Atoi idParam = .ok id)) →
        storeReturns (TodoService.markTodoDone idParam repo bus) = [] ∧
        natsCalls (TodoService.markTodoDone idParam repo bus) = [] ∧
        publishes (TodoService.markTodoDone idParam repo bus) = [])) := by
  refine ⟨fun bind repo bus => ⟨handlers_trace_discipline.1 bind repo bus, ?_,
      createTodo_rejected bind repo bus⟩,
    fun src repo bus => ⟨handlers_trace_discipline.2.1 src repo bus,
      fun url task h1 h2 h3 h4 h5 =>
        createRandomTodo_accepted src url task repo bus h1 h2 h3 h4 h5,
      createRandomTodo_rejected src repo bus⟩,
    fun idParam repo bus => ⟨handlers_trace_discipline.2.2 idParam repo bus,
      fun id h1 h2 => markTodoDone_accepted idParam id repo bus h1 h2,
      markTodoDone_rejected idParam repo bus⟩⟩
  intro requestTask task hb hv
  subst hb
  exact createTodo_accepted requestTask task repo bus hv

/-- Witness for C3: each handler on an accepted request with a store that
answers, on an accepted request with a store that fails, and on a rejected
request. -/
theorem handlers_publish_only_after_commit_witness :
    ((natsCalls (createTodo (.ok (Go.bytes "buy milk")) sampleStore workingBus) =
        [("todo.created", ⟨1, Go.bytes "buy milk", false⟩)]) ∧
      (natsCalls (createTodo (.ok (Go.bytes "buy milk")) failingStore workingBus) = [] ∧
        publishes (createTodo (.ok (Go.bytes "buy milk")) failingStore workingBus) = []) ∧
      (storeReturns (createTodo (.error "EOF") sampleStore workingBus) = [] ∧
        natsCalls (createTodo (.error "EOF") sampleStore workingBus) = [] ∧
        publishes (createTodo (.error "EOF") sampleStore workingBus) = [])) ∧
    ((natsCalls (createRandomTodo sampleArticle sampleStore workingBus) =
        [("todo.created",
          ⟨1, Go.bytes "Read: https://en.wikipedia.org/wiki/Lean", false⟩)]) ∧
      (natsCalls (createRandomTodo sampleArticle failingStore workingBus) = [] ∧
        publishes (createRandomTodo sampleArticle failingStore workingBus) = []) ∧
      (storeReturns (createRandomTodo ⟨[], none, .error "unset"⟩ sampleStore workingBus) = [] ∧
        natsCalls (createRandomTodo ⟨[], none, .error "unset"⟩ sampleStore workingBus) = [] ∧
        publishes (createRandomTodo ⟨[], none, .error "unset"⟩ sampleStore workingBus) = [])) ∧
    ((natsCalls (TodoService.markTodoDone (Go.bytes "7") sampleStore workingBus) =
        [("todo.updated", ⟨7, Go.bytes "buy milk", true⟩)]) ∧
      (natsCalls (TodoService.markTodoDone (Go.bytes "7") failingStore workingBus) = [] ∧
        publishes (TodoService.markTodoDone (Go.bytes "7") failingStore workingBus) = []) ∧
      (storeReturns (TodoService.markTodoDone (Go.bytes "abc") sampleStore workingBus) = [] ∧
        natsCalls (TodoService.markTodoDone (Go.bytes "abc") sampleStore workingBus) = [] ∧
        publishes (TodoService.markTodoDone (Go.bytes "abc") sampleStore workingBus) = [])) :=
  ⟨⟨((handlers_publish_only_after_commit.1 (.ok (Go.bytes "buy milk")) sampleStore
        workingBus).2.1 (Go.bytes "buy milk") (Go.bytes "buy milk") rfl (by decide)).2.1
        ⟨1, Go.bytes "buy milk", false⟩ rfl,
      ((handlers_publish_only_after_commit.1 (.ok (Go.bytes "buy milk")) failingStore
        workingBus).2.1 (Go.bytes "buy milk") (Go.bytes "buy milk") rfl (by decide)).2.2
        "sql: connection refused" rfl,
      (handlers_publish_only_after_commit.1 (.error "EOF") sampleStore workingBus).2.2
        (fun _ _ h => by cases h.1)⟩,
    ⟨((handlers_publish_only_after_commit.2.1 sampleArticle sampleStore workingBus).2.1
        (Go.bytes "https://en.wikipedia.org/wiki/Lean")
        (Go.bytes "Read: https://en.wikipedia.org/wiki/Lean")
        (by decide) rfl rfl (by decide) (by decide)).2.1
        ⟨1, Go.bytes "Read: https://en.wikipedia.org/wiki/Lean", false⟩ rfl,
      ((handlers_publish_only_after_commit.2.1 sampleArticle failingStore workingBus).2.1
        (Go.bytes "https://en.wikipedia.org/wiki/Lean")
        (Go.bytes "Read: https://en.wikipedia.org/wiki/Lean")
        (by decide) rfl rfl (by decide) (by decide)).2.2 "sql: connection refused" rfl,
      (handlers_publish_only_after_commit.2.1 ⟨[], none, .error "unset"⟩ sampleStore
        workingBus).2.2 (fun _ _ h => h.1 rfl)⟩,
    ⟨((handlers_publish_only_after_commit.2.2 (Go.bytes "7") sampleStore workingBus).2.1 7
        (by decide) (by decide)).2.1 ⟨7, Go.bytes "buy milk", true⟩ rfl,
      ((handlers_publish_only_after_commit.2.2 (Go.bytes "7") failingStore workingBus).2.1 7
        (by decide) (by decide)).2.2 "sql: no rows in result set" rfl,
      (handlers_publish_only_after_commit.2.2 (Go.bytes "abc") sampleStore workingBus).2.2
        (fun id h => by
          have e : Go.Atoi (Go.bytes "abc") = .error .invalid := by decide
          rw [e] at h
          cases h.2)⟩⟩

theorem responses_append (a b : List TodoService.Effect) :
    responses (a ++ b) = responses a ++ responses b := by
  induction a with
  | nil => rfl
  | cons e es ih => cases e <;> simp [responses, ih]

theorem responses_sendNatsMessage (subject : String) (todo : TodoService.Todo) (bus : Bus) :
    responses (sendNatsMessage subject todo bus) = [] := by
  rcases sendNatsMessage_cases subject todo bus with h | h | ⟨data, h⟩ <;>
  · rw [h]
    rfl

theorem responses_commit (subject : String) (todo : TodoService.Todo) (bus : Bus)
    (r : Response) :
    (∀ task res, responses (.addTodo task res :: (sendNatsMessage subject todo bus ++
      [.respond r])) = [r]) ∧
    (∀ id res, responses (.markTodoDone id res :: (sendNatsMessage subject todo bus ++
      [.respond r])) = [r]) := by
  have h : responses (sendNatsMessage subject todo bus ++ [.respond r]) = [r] := by
    rw [responses_append, responses_sendNatsMessage]
    rfl
  exact ⟨fun _ _ => h, fun _ _ => h⟩

/-- C4 (the response does not depend on the message bus). For `createTodo`,
`createRandomTodo` and `markTodoDone`: two runs on the same request and the
same store that differ only in what `sendNatsMessage` meets (`NATS_URL`
unset, connection failure, marshalling failure, publish failure, success)
send the same responses, status and body; and every run sends exactly one
response. -/
theorem response_independent_of_publish :
    (∀ (bind : Except String (List Nat)) (repo : TodoRepository) (bus₁ bus₂ : Bus),
      responses (createTodo bind repo bus₁) = responses (createTodo bind repo bus₂) ∧
      (responses (createTodo bind repo bus₁)).length = 1) ∧
    (∀ (src : ArticleSource) (repo : TodoRepository) (bus₁ bus₂ : Bus),
      responses (createRandomTodo src repo bus₁) =
        responses (createRandomTodo src repo bus₂) ∧
      (responses (createRandomTodo src repo bus₁)).length = 1) ∧
    (∀ (idParam : List Nat) (repo : TodoRepository) (bus₁ bus₂ : Bus),
      responses (TodoService.markTodoDone idParam repo bus₁) =
        responses (TodoService.markTodoDone idParam repo bus₂) ∧
      (responses (TodoService.markTodoDone idParam repo bus₁)).length = 1) := by
  refine ⟨?_, ?_, ?_⟩
  · intro bind repo bus₁ bus₂
    unfold createTodo
    split
    · exact ⟨rfl, rfl⟩
    · split
      · exact ⟨rfl, rfl⟩
      · split
        · exact ⟨rfl, rfl⟩
        · rw [(responses_commit _ _ bus₁ _).1, (responses_commit _ _ bus₂ _).1]
          exact ⟨rfl, rfl⟩
  · intro src repo bus₁ bus₂
    unfold createRandomTodo
    split
    · exact ⟨rfl, rfl⟩
    · split
      · exact ⟨rfl, rfl⟩
      · split
        · exact ⟨rfl, rfl⟩
        · simp only [responses]
          split
          · exact ⟨rfl, rfl⟩
          · split
            · exact ⟨rfl, rfl⟩
            · split
              · exact ⟨rfl, rfl⟩
              · split
                · exact ⟨rfl, rfl⟩
                · rw [(responses_commit _ _ bus₁ _).1, (responses_commit _ _ bus₂ _).1]
                  exact ⟨rfl, rfl⟩
  · intro idParam repo bus₁ bus₂
    unfold TodoService.markTodoDone
    split
    · exact ⟨rfl, rfl⟩
    · split
      · exact ⟨rfl, rfl⟩
      · split
        · exact ⟨rfl, rfl⟩
        · rw [(responses_commit _ _ bus₁ _).2, (responses_commit _ _ bus₂ _).2]
          exact ⟨rfl, rfl⟩

end TodoApi

section JsonCodec

open Go

theorem expectBytes_append (lit s : List Nat) : expectBytes lit (lit ++ s) = some s := by
  induction lit with
  | nil => cases s <;> rfl
  | cons l ls ih => simp [expectBytes, ih]

theorem formatUint_eq (n : Nat) :
    formatUint n = if n < 10 then [48 + n] else formatUint (n / 10) ++ [48 + n % 10] := by
  have key : ∀ (n fuel : Nat) (acc : List Nat), n < fuel →
      formatLoop fuel n acc = formatUint n ++ acc := by
    intro n
    induction n using Nat.strong_induction_on with
    | _ n ih =>
      intro fuel acc hf
      obtain ⟨f, rfl⟩ : ∃ f, fuel = f + 1 := ⟨fuel - 1, by omega⟩
      by_cases h : n < 10
      · simp [formatUint, formatLoop, h]
      · have hlt : n / 10 < n := by omega
        have e1 : formatLoop (f + 1) n acc = formatLoop f (n / 10) ((48 + n % 10) :: acc) := by
          simp [formatLoop, h]
        have e2 : formatUint n = formatLoop n (n / 10) [48 + n % 10] := by
          simp [formatUint, formatLoop, h]
        rw [e1, e2, ih (n / 10) hlt f _ (by omega), ih (n / 10) hlt n _ hlt]
        simp
  by_cases h : n < 10
  · simp [formatUint, formatLoop, h]
  · rw [if_neg h]
    have e2 : formatUint n = formatLoop n (n / 10) [48 + n % 10] := by
      simp [formatUint, formatLoop, h]
    rw [e2, key (n / 10) n _ (by omega)]

theorem formatUint_digits (n : Nat) : ∀ c ∈ formatUint n, 48 ≤ c ∧ c ≤ 57 := by
  induction n using Nat.strong_induction_on with
  | _ n ih =>
    intro c hc
    rw [formatUint_eq] at hc
    by_cases h : n < 10
    · rw [if_pos h] at hc
      simp at hc
      omega
    · rw [if_neg h] at hc
      rcases List.mem_append.1 hc with h1 | h1
      · exact ih (n / 10) (by omega) c h1
      · simp at h1
        omega

theorem formatUint_head (n : Nat) (hn : 1 ≤ n) :
    ∃ h t, formatUint n = h :: t ∧ 49 ≤ h ∧ h ≤ 57 ∧ (10 ≤ n → t ≠ []) := by
  induction n using Nat.strong_induction_on with
  | _ n ih =>
    rw [formatUint_eq]
    by_cases h : n < 10
    · rw [if_pos h]
      exact ⟨48 + n, [], rfl, by omega, by omega, by omega⟩
    · rw [if_neg h]
      obtain ⟨h', t', e, h1, h2, _⟩ := ih (n / 10) (by omega) (by omega)
      rw [e]
      exact ⟨h', t' ++ [48 + n % 10], rfl, h1, h2, by simp⟩

theorem parseUintLoop_digit (d m : Nat) (rest : List Nat) (hd : d < 10)
    (hm : m * 10 + d ≤ maxUint64) :
    parseUintLoop ((48 + d) :: rest) m = parseUintLoop rest (m * 10 + d) := by
  have e : 48 + d - 48 = d := by omega
  rw [parseUintLoop, if_pos (by omega), e, if_neg (by omega)]

theorem parseUintLoop_formatUint (n : Nat) (hn : n ≤ maxUint64) (rest : List Nat) :
    parseUintLoop (formatUint n ++ rest) 0 = parseUintLoop rest n := by
  induction n using Nat.strong_induction_on generalizing rest with
  | _ n ih =>
    rw [formatUint_eq]
    by_cases h : n < 10
    · rw [if_pos h]
      have := parseUintLoop_digit n 0 rest h (by omega)
      simpa using this
    · rw [if_neg h, List.append_assoc, ih (n / 10) (by omega) (by omega)]
      have := parseUintLoop_digit (n % 10) (n / 10) rest (by omega) (by omega)
      have h2 : n / 10 * 10 + n % 10 = n := by omega
      rw [h2] at this
      simpa using this

theorem formatUint_ne_nil (n : Nat) : formatUint n ≠ [] := by
  rw [formatUint_eq]
  split <;> simp

theorem parseInt_formatInt (v : Int) (hlo : -9223372036854775808 ≤ v)
    (hhi : v ≤ 9223372036854775807) : ParseInt (FormatInt v) = .ok v := by
  have hp : parseUintLoop (formatUint v.natAbs) 0 = .ok v.natAbs := by
    have := parseUintLoop_formatUint v.natAbs (by unfold maxUint64; omega) []
    simpa [parseUintLoop] using this
  by_cases hneg : v < 0
  · have e : FormatInt v = 45 :: formatUint v.natAbs := by simp [FormatInt, hneg]
    rw [e]
    have h1 : ¬ (9223372036854775808 < v.natAbs) := by omega
    have h2 : -(v.natAbs : Int) = v := by omega
    simp [ParseInt, hp, formatUint_ne_nil, h1]
    rw [abs_of_neg hneg, neg_neg]
  · have e : FormatInt v = formatUint v.natAbs := by simp [FormatInt, hneg]
    rw [e]
    obtain ⟨h, t, ht, h1, h2⟩ : ∃ h t, formatUint v.natAbs = h :: t ∧ 48 ≤ h ∧ h ≤ 57 := by
      cases hl : formatUint v.natAbs with
      | nil => exact absurd hl (formatUint_ne_nil _)
      | cons h t =>
        have := formatUint_digits v.natAbs h (by rw [hl]; simp)
        exact ⟨h, t, rfl, this.1, this.2⟩
    rw [ht] at hp ⊢
    have h43 : h ≠ 43 := by omega
    have h45 : h ≠ 45 := by omega
    have h3 : ¬ (9223372036854775808 ≤ v.natAbs) := by omega
    have h4 : (v.natAbs : Int) = v := by omega
    simp [ParseInt, hp, h43, h45, h3, h4]

theorem takeWhile_append_stop {α : Type} (p : α → Bool) (l : List α) (y : α) (r : List α)
    (hl : ∀ x ∈ l, p x = true) (hy : p y = false) :
    (l ++ y :: r).takeWhile p = l ∧ (l ++ y :: r).dropWhile p = y :: r := by
  induction l with
  | nil => simp [List.takeWhile, List.dropWhile, hy]
  | cons a l ih =>
    have ha := hl a (by simp)
    have := ih (fun x hx => hl x (by simp [hx]))
    simp [List.takeWhile, List.dropWhile, ha, this]

theorem formatInt_numberBytes (v : Int) : ∀ c ∈ FormatInt v, isNumberByte c = true := by
  intro c hc
  unfold FormatInt at hc
  split at hc
  · rcases List.mem_cons.1 hc with h | h
    · subst h; decide
    · have := formatUint_digits _ c h
      simp [isNumberByte]; omega
  · have := formatUint_digits _ c hc
    simp [isNumberByte]; omega

theorem isIntegerLiteral_formatUint (n : Nat) :
    isIntegerLiteral (formatUint n) = true := by
  by_cases hn : n < 10
  · rw [formatUint_eq, if_pos hn]
    have : 48 + n ≠ 45 := by omega
    simp [isIntegerLiteral, this]
    omega
  · obtain ⟨h, t, e, h1, h2, h3⟩ := formatUint_head n (by omega)
    have hd := formatUint_digits n
    rw [e] at hd ⊢
    have ht := h3 (by omega)
    obtain ⟨t0, ts, rfl⟩ : ∃ t0 ts, t = t0 :: ts := by
      cases t with
      | nil => exact absurd rfl ht
      | cons a b => exact ⟨a, b, rfl⟩
    have h45 : h ≠ 45 := by omega
    have hall : ∀ c ∈ t0 :: ts, 48 ≤ c ∧ c ≤ 57 := fun c hc => hd c (by simp [hc])
    simp only [isIntegerLiteral, List.head?, Option.some.injEq, if_neg h45]
    simp only [Bool.and_eq_true, decide_eq_true_eq, List.all_eq_true]
    exact ⟨⟨h1, h2⟩, hall⟩

theorem isIntegerLiteral_formatInt (v : Int) : isIntegerLiteral (FormatInt v) = true := by
  unfold FormatInt
  split
  · have h := isIntegerLiteral_formatUint v.natAbs
    unfold isIntegerLiteral at h ⊢
    obtain ⟨a, t, e, h1, _⟩ : ∃ a t, formatUint v.natAbs = a :: t ∧ 48 ≤ a ∧ a ≤ 57 := by
      cases hl : formatUint v.natAbs with
      | nil => exact absurd hl (formatUint_ne_nil _)
      | cons a t =>
        have := formatUint_digits v.natAbs a (by rw [hl]; simp)
        exact ⟨a, t, rfl, this.1, this.2⟩
    rw [e] at h ⊢
    have h45 : a ≠ 45 := by omega
    simpa [h45] using h
  · exact isIntegerLiteral_formatUint _

theorem parseIntLiteral_formatInt (v : Int) (hlo : -9223372036854775808 ≤ v)
    (hhi : v ≤ 9223372036854775807) (rest : List Nat) :
    parseIntLiteral (FormatInt v ++ 44 :: rest) = some (v, 44 :: rest) := by
  have h := takeWhile_append_stop isNumberByte (FormatInt v) 44 rest
    (formatInt_numberBytes v) (by decide)
  unfold parseIntLiteral
  simp only [h.1, h.2, isIntegerLiteral_formatInt, parseInt_formatInt v hlo hhi, if_true]

theorem decodeRune_ascii (b : Nat) (tl : List Nat) (hb : b < 0x80) :
    decodeRune (b :: tl) = (b, 1) := by
  simp [decodeRune, hb]

theorem decodeRune_two (b s1 : Nat) (t : List Nat) (h1 : 0xC2 ≤ b) (h2 : b < 0xE0)
    (h3 : 0x80 ≤ s1) (h4 : s1 ≤ 0xBF) :
    decodeRune (b :: s1 :: t) = (b % 32 * 64 + s1 % 64, 2) := by
  have a1 : ¬ b < 0x80 := by omega
  have a2 : ¬ (b < 0xC2 ∨ 0xF4 < b) := by omega
  have a3 : b ≠ 0xE0 := by omega
  have a4 : b ≠ 0xF0 := by omega
  have a5 : b ≠ 0xED := by omega
  have a6 : b ≠ 0xF4 := by omega
  have a7 : ¬ (s1 < 0x80 ∨ 0xBF < s1) := by omega
  simp [decodeRune, a1, a2, a3, a4, a5, a6, a7, h2]

theorem decodeRune_three (b s1 s2 : Nat) (t : List Nat) (h1 : 0xE0 ≤ b) (h2 : b < 0xF0)
    (h3 : 0x80 ≤ s1) (h4 : s1 ≤ 0xBF) (h5 : b = 0xE0 → 0xA0 ≤ s1) (h6 : b = 0xED → s1 ≤ 0x9F)
    (h7 : 0x80 ≤ s2) (h8 : s2 ≤ 0xBF) :
    decodeRune (b :: s1 :: s2 :: t) = (b % 16 * 4096 + s1 % 64 * 64 + s2 % 64, 3) := by
  have a1 : ¬ b < 0x80 := by omega
  have a2 : ¬ (b < 0xC2 ∨ 0xF4 < b) := by omega
  have a3 : ¬ b < 0xE0 := by omega
  have a4 : b ≠ 0xF0 := by omega
  have a6 : b ≠ 0xF4 := by omega
  have a7 : ¬ (s2 < 0x80 ∨ 0xBF < s2) := by omega
  by_cases e0 : b = 0xE0
  · subst e0
    have := h5 rfl
    have a8 : ¬ (s1 < 0xA0 ∨ 0xBF < s1) := by omega
    simp [decodeRune, a7, a8]
  · by_cases ed : b = 0xED
    · subst ed
      have := h6 rfl
      have a8 : ¬ (s1 < 0x80 ∨ 0x9F < s1) := by omega
      simp [decodeRune, a7, a8]
    · have a8 : ¬ (s1 < 0x80 ∨ 0xBF < s1) := by omega
      simp [decodeRune, a1, a2, a3, a4, a6, a7, a8, e0, ed, h2]

theorem decodeRune_four (b s1 s2 s3 : Nat) (t : List Nat) (h1 : 0xF0 ≤ b) (h2 : b ≤ 0xF4)
    (h3 : 0x80 ≤ s1) (h4 : s1 ≤ 0xBF) (h5 : b = 0xF0 → 0x90 ≤ s1) (h6 : b = 0xF4 → s1 ≤ 0x8F)
    (h7 : 0x80 ≤ s2) (h8 : s2 ≤ 0xBF) (h9 : 0x80 ≤ s3) (h10 : s3 ≤ 0xBF) :
    decodeRune (b :: s1 :: s2 :: s3 :: t) =
      (b % 8 * 262144 + s1 % 64 * 4096 + s2 % 64 * 64 + s3 % 64, 4) := by
  have a1 : ¬ b < 0x80 := by omega
  have a2 : ¬ (b < 0xC2 ∨ 0xF4 < b) := by omega
  have a3 : ¬ b < 0xE0 := by omega
  have a4 : ¬ b < 0xF0 := by omega
  have a5 : b ≠ 0xE0 := by omega
  have a6 : b ≠ 0xED := by omega
  have a7 : ¬ (s2 < 0x80 ∨ 0xBF < s2) := by omega
  have a9 : ¬ (s3 < 0x80 ∨ 0xBF < s3) := by omega
  by_cases e0 : b = 0xF0
  · subst e0
    have := h5 rfl
    have a8 : ¬ (s1 < 0x90 ∨ 0xBF < s1) := by omega
    simp [decodeRune, a7, a8, a9]
  · by_cases ed : b = 0xF4
    · subst ed
      have := h6 rfl
      have a8 : ¬ (s1 < 0x80 ∨ 0x8F < s1) := by omega
      simp [decodeRune, a7, a8, a9]
    · have a8 : ¬ (s1 < 0x80 ∨ 0xBF < s1) := by omega
      simp [decodeRune, a1, a2, a3, a4, a5, a6, a7, a8, a9, e0, ed]

theorem decodeRune_valid_shape (b : Nat) (tl : List Nat) (hb : 0x80 ≤ b)
    (hv : decodeRune (b :: tl) ≠ (runeError, 1)) : MultiByte b tl := by
  have a1 : ¬ b < 0x80 := by omega
  by_cases a2 : b < 0xC2 ∨ 0xF4 < b
  · exact absurd (by simp [decodeRune, a1, a2]) hv
  by_cases c2 : b < 0xE0
  · rcases tl with _ | ⟨s1, t⟩
    · exact absurd (by simp [decodeRune, a1, a2, c2]) hv
    · by_cases r1 : s1 < 0x80 ∨ 0xBF < s1
      · have a3 : b ≠ 0xE0 := by omega
        have a4 : b ≠ 0xF0 := by omega
        have a5 : b ≠ 0xED := by omega
        have a6 : b ≠ 0xF4 := by omega
        exact absurd (by simp [decodeRune, a1, a2, a3, a4, a5, a6, c2, r1]) hv
      · exact .two b s1 t (by omega) c2 (by omega) (by omega)
  have c2' : ¬ b < 0xE0 := c2
  by_cases c3 : b < 0xF0
  · rcases tl with _ | ⟨s1, _ | ⟨s2, t⟩⟩
    · exact absurd (by simp [decodeRune, a1, a2, c2, c3]) hv
    · exact absurd (by simp [decodeRune, a1, a2, c2, c3]) hv
    · by_cases r2 : s2 < 0x80 ∨ 0xBF < s2
      · exact absurd (by
          by_cases e0 : b = 0xE0
          · subst e0; simp [decodeRune, r2]
          · by_cases ed : b = 0xED
            · subst ed; simp [decodeRune, r2]
            · have a4 : b ≠ 0xF0 := by omega
              have a6 : b ≠ 0xF4 := by omega
              simp [decodeRune, a1, a2, c2, c3, r2, e0, ed, a4, a6]) hv
      · by_cases e0 : b = 0xE0
        · subst e0
          by_cases r1 : s1 < 0xA0 ∨ 0xBF < s1
          · exact absurd (by simp [decodeRune, r1]) hv
          · exact .three _ s1 s2 t (by omega) (by omega) (by omega) (by omega)
              (by omega) (by omega) (by omega) (by omega)
        · by_cases ed : b = 0xED
          · subst ed
            by_cases r1 : s1 < 0x80 ∨ 0x9F < s1
            · exact absurd (by simp [decodeRune, r1]) hv
            · exact .three _ s1 s2 t (by omega) (by omega) (by omega) (by omega)
                (by omega) (by omega) (by omega) (by omega)
          · by_cases r1 : s1 < 0x80 ∨ 0xBF < s1
            · have a4 : b ≠ 0xF0 := by omega
              have a6 : b ≠ 0xF4 := by omega
              exact absurd (by simp [decodeRune, a1, a2, c2, c3, r1, e0, ed, a4, a6]) hv
            · exact .three _ s1 s2 t (by omega) (by omega) (by omega) (by omega)
                (by omega) (by omega) (by omega) (by omega)
  · have a5 : b ≠ 0xE0 := by omega
    have a6 : b ≠ 0xED := by omega
    rcases tl with _ | ⟨s1, _ | ⟨s2, _ | ⟨s3, t⟩⟩⟩
    · exact absurd (by simp [decodeRune, a1, a2, c2, c3]) hv
    · exact absurd (by simp [decodeRune, a1, a2, c2, c3]) hv
    · exact absurd (by simp [decodeRune, a1, a2, c2, c3]) hv
    · by_cases r23 : (s2 < 0x80 ∨ 0xBF < s2) ∨ (s3 < 0x80 ∨ 0xBF < s3)
      · exact absurd (by
          by_cases e0 : b = 0xF0
          · subst e0
            rcases r23 with r | r <;> simp [decodeRune, r]
          · by_cases e4 : b = 0xF4
            · subst e4
              rcases r23 with r | r <;> simp [decodeRune, r]
            · rcases r23 with r | r <;>
                simp [decodeRune, a1, a2, c2, c3, r, e0, e4, a5, a6]) hv
      · by_cases e0 : b = 0xF0
        · subst e0
          by_cases r1 : s1 < 0x90 ∨ 0xBF < s1
          · exact absurd (by simp [decodeRune, r1]) hv
          · exact .four _ s1 s2 s3 t (by omega) (by omega) (by omega) (by omega)
              (by omega) (by omega) (by omega) (by omega) (by omega) (by omega)
        · by_cases e4 : b = 0xF4
          · subst e4
            by_cases r1 : s1 < 0x80 ∨ 0x8F < s1
            · exact absurd (by simp [decodeRune, r1]) hv
            · exact .four _ s1 s2 s3 t (by omega) (by omega) (by omega) (by omega)
                (by omega) (by omega) (by omega) (by omega) (by omega) (by omega)
          · by_cases r1 : s1 < 0x80 ∨ 0xBF < s1
            · exact absurd (by simp [decodeRune, a1, a2, c2, c3, r1, e0, e4, a5, a6]) hv
            · exact .four _ s1 s2 s3 t (by omega) (by omega) (by omega) (by omega)
                (by omega) (by omega) (by omega) (by omega) (by omega) (by omega)

theorem encodeRune_two (b s1 : Nat) (h1 : 0xC2 ≤ b) (h2 : b < 0xE0)
    (h3 : 0x80 ≤ s1) (h4 : s1 ≤ 0xBF) :
    encodeRune (b % 32 * 64 + s1 % 64) = [b, s1] ∧
    b % 32 * 64 + s1 % 64 < 0x800 := by
  unfold encodeRune
  rw [if_neg (by omega), if_pos (by omega)]
  refine ⟨?_, by omega⟩
  congr 1
  · omega
  · congr 1
    omega

theorem encodeRune_three (b s1 s2 : Nat) (h1 : 0xE0 ≤ b) (h2 : b < 0xF0)
    (h3 : 0x80 ≤ s1) (h4 : s1 ≤ 0xBF) (h5 : b = 0xE0 → 0xA0 ≤ s1) (h6 : b = 0xED → s1 ≤ 0x9F)
    (h7 : 0x80 ≤ s2) (h8 : s2 ≤ 0xBF) :
    encodeRune (b % 16 * 4096 + s1 % 64 * 64 + s2 % 64) = [b, s1, s2] ∧
    ¬ (0xD800 ≤ b % 16 * 4096 + s1 % 64 * 64 + s2 % 64 ∧
      b % 16 * 4096 + s1 % 64 * 64 + s2 % 64 < 0xE000) := by
  have hns : ¬ (0xD800 ≤ b % 16 * 4096 + s1 % 64 * 64 + s2 % 64 ∧
      b % 16 * 4096 + s1 % 64 * 64 + s2 % 64 < 0xE000) := by
    by_cases ed : b = 0xED
    · have := h6 ed
      omega
    · omega
  have hlo : 0x800 ≤ b % 16 * 4096 + s1 % 64 * 64 + s2 % 64 := by
    by_cases e0 : b = 0xE0
    · have := h5 e0
      omega
    · omega
  refine ⟨?_, hns⟩
  unfold encodeRune
  rw [if_neg (by omega), if_neg (by omega), if_neg (by omega), if_pos (by omega)]
  congr 1
  · omega
  · congr 1
    · omega
    · congr 1
      omega

theorem encodeRune_four (b s1 s2 s3 : Nat) (h1 : 0xF0 ≤ b) (h2 : b ≤ 0xF4)
    (h3 : 0x80 ≤ s1) (h4 : s1 ≤ 0xBF) (h5 : b = 0xF0 → 0x90 ≤ s1) (h6 : b = 0xF4 → s1 ≤ 0x8F)
    (h7 : 0x80 ≤ s2) (h8 : s2 ≤ 0xBF) (h9 : 0x80 ≤ s3) (h10 : s3 ≤ 0xBF) :
    encodeRune (b % 8 * 262144 + s1 % 64 * 4096 + s2 % 64 * 64 + s3 % 64) = [b, s1, s2, s3] ∧
    0x10000 ≤ b % 8 * 262144 + s1 % 64 * 4096 + s2 % 64 * 64 + s3 % 64 := by
  have hlo : 0x10000 ≤ b % 8 * 262144 + s1 % 64 * 4096 + s2 % 64 * 64 + s3 % 64 := by
    by_cases e0 : b = 0xF0
    · have := h5 e0
      omega
    · omega
  have hhi : b % 8 * 262144 + s1 % 64 * 4096 + s2 % 64 * 64 + s3 % 64 ≤ 0x10FFFF := by
    by_cases e4 : b = 0xF4
    · have := h6 e4
      omega
    · omega
  refine ⟨?_, hlo⟩
  unfold encodeRune
  rw [if_neg (by omega), if_neg (by omega), if_neg (by omega), if_neg (by omega)]
  congr 1
  · omega
  · congr 1
    · omega
    · congr 1
      · omega
      · congr 1
        omega

theorem decodeRune_take4 (s : List Nat) : decodeRune (s.take 4) = decodeRune s := by
  rcases s with _ | ⟨b, _ | ⟨s1, _ | ⟨s2, _ | ⟨s3, t⟩⟩⟩⟩
  · rfl
  · rfl
  · rfl
  · rfl
  · have e : (b :: s1 :: s2 :: s3 :: t).take 4 = b :: s1 :: s2 :: s3 :: [] := by simp
    rw [e]
    by_cases hb : b < 0x80
    · rw [decodeRune_ascii b _ hb, decodeRune_ascii b _ hb]
    · have transfer : ∀ t1 t2 : List Nat, MultiByte b (s1 :: s2 :: s3 :: t1) →
          decodeRune (b :: s1 :: s2 :: s3 :: t1) = decodeRune (b :: s1 :: s2 :: s3 :: t2) ∧
          decodeRune (b :: s1 :: s2 :: s3 :: t1) ≠ (runeError, 1) := by
        intro t1 t2 hm
        cases hm with
        | two _ _ h1 h2 h3 h4 =>
          rw [decodeRune_two b s1 _ h1 h2 h3 h4, decodeRune_two b s1 _ h1 h2 h3 h4]
          exact ⟨rfl, by simp⟩
        | three _ _ _ h1 h2 h3 h4 h5 h6 h7 h8 =>
          rw [decodeRune_three b s1 s2 _ h1 h2 h3 h4 h5 h6 h7 h8,
            decodeRune_three b s1 s2 _ h1 h2 h3 h4 h5 h6 h7 h8]
          exact ⟨rfl, by simp⟩
        | four _ _ _ _ h1 h2 h3 h4 h5 h6 h7 h8 h9 h10 =>
          rw [decodeRune_four b s1 s2 s3 _ h1 h2 h3 h4 h5 h6 h7 h8 h9 h10,
            decodeRune_four b s1 s2 s3 _ h1 h2 h3 h4 h5 h6 h7 h8 h9 h10]
          exact ⟨rfl, by simp⟩
      by_cases hv : decodeRune (b :: s1 :: s2 :: s3 :: t) = (runeError, 1)
      · rw [hv]
        by_contra h'
        have hm := decodeRune_valid_shape b [s1, s2, s3] (by omega) h'
        have := transfer [] t hm
        exact this.2 (this.1.trans hv)
      · have hm := decodeRune_valid_shape b (s1 :: s2 :: s3 :: t) (by omega) hv
        exact ((transfer t [] hm).1).symm

theorem hexValue_hexDigit (n : Nat) (hn : n < 16) : hexValue (hexDigit n) = some n := by
  interval_cases n <;> decide

theorem getu4_byte (b : Nat) (hb : b < 256) :
    getu4 0x30 0x30 (hexDigit (b / 16)) (hexDigit (b % 16)) = some b := by
  have h1 := hexValue_hexDigit (b / 16) (by omega)
  have h2 := hexValue_hexDigit (b % 16) (by omega)
  have h0 : hexValue 0x30 = some 0 := by decide
  unfold getu4
  rw [h0, h1, h2]
  simp only [Option.some.injEq]
  omega

theorem unquoteLoop_quote (k : Nat) (rest : List Nat) :
    unquoteLoop (k + 1) (0x22 :: rest) = some ([], rest) := by
  simp [unquoteLoop]

theorem unquoteLoop_plain (k c : Nat) (X d r : List Nat) (h1 : c ≠ 0x22) (h2 : c ≠ 0x5C)
    (h3 : 0x20 ≤ c) (h4 : c < 0x80) (h : unquoteLoop k X = some (d, r)) :
    unquoteLoop (k + 1) (c :: X) = some (c :: d, r) := by
  have h3' : ¬ c < 0x20 := by omega
  simp [unquoteLoop, h1, h2, h3', h4, h]

theorem unquoteLoop_u4 (k a b c e rr : Nat) (X d r : List Nat)
    (hu : getu4 a b c e = some rr) (hs : ¬ (0xD800 ≤ rr ∧ rr < 0xE000))
    (h : unquoteLoop k X = some (d, r)) :
    unquoteLoop (k + 1) (0x5C :: 0x75 :: a :: b :: c :: e :: X) =
      some (encodeRune rr ++ d, r) := by
  simp [unquoteLoop, hu, unescapeRune, hs, h]

theorem unquoteLoop_escape (k b : Nat) (X d r : List Nat) (hb : b < 0x80)
    (hs : htmlSafe b = false) (h : unquoteLoop k X = some (d, r)) :
    unquoteLoop (k + 1) (escapeByte b ++ X) = some (b :: d, r) := by
  by_cases c1 : b = 0x5C ∨ b = 0x22
  · rcases c1 with rfl | rfl <;> simp [escapeByte, unquoteLoop, h]
  by_cases c2 : b = 0x08
  · subst c2; simp [escapeByte, unquoteLoop, h]
  by_cases c3 : b = 0x0C
  · subst c3; simp [escapeByte, unquoteLoop, h]
  by_cases c4 : b = 0x0A
  · subst c4; simp [escapeByte, unquoteLoop, h]
  by_cases c5 : b = 0x0D
  · subst c5; simp [escapeByte, unquoteLoop, h]
  by_cases c6 : b = 0x09
  · subst c6; simp [escapeByte, unquoteLoop, h]
  have e : escapeByte b = [0x5C, 0x75, 0x30, 0x30, hexDigit (b / 16), hexDigit (b % 16)] := by
    simp [escapeByte, c1, c2, c3, c4, c5, c6]
  rw [e]
  have := unquoteLoop_u4 k 0x30 0x30 (hexDigit (b / 16)) (hexDigit (b % 16)) b X d r
    (getu4_byte b (by omega)) (by omega) h
  have e1 : encodeRune b = [b] := by
    unfold encodeRune
    rw [if_pos (by omega)]
  rw [e1] at this
  simpa using this

theorem unquoteLoop_rune (k b n rr : Nat) (tl X d r : List Nat) (hb : 0x80 ≤ b)
    (hd : decodeRune (b :: (tl ++ X)) = (rr, n)) (hn : n = tl.length + 1)
    (he : encodeRune rr = b :: tl) (h : unquoteLoop k X = some (d, r)) :
    unquoteLoop (k + 1) (b :: (tl ++ X)) = some (b :: (tl ++ d), r) := by
  have h1 : b ≠ 0x22 := by omega
  have h2 : b ≠ 0x5C := by omega
  have h3 : ¬ b < 0x20 := by omega
  have h4 : ¬ b < 0x80 := by omega
  have e : (b :: (tl ++ X)).drop n = X := by
    subst hn
    simp
  simp only [unquoteLoop, if_neg h1, if_neg h2, if_neg h3, if_neg h4, hd, e, h, he]
  simp

theorem validUTF8_cons (f b : Nat) (tl : List Nat) (h : validUTF8 (f + 1) (b :: tl) = true) :
    decodeRune (b :: tl) ≠ (runeError, 1) ∧
    validUTF8 f ((b :: tl).drop (decodeRune (b :: tl)).2) = true := by
  unfold validUTF8 at h
  simp only at h
  split at h
  · cases h
  · rename_i hne
    refine ⟨?_, h⟩
    intro e
    rw [e] at hne
    exact hne ⟨rfl, rfl⟩

theorem appendStringLoop_rune (f b : Nat) (tl : List Nat) (hb : 0x80 ≤ b)
    (hv : decodeRune (b :: tl) ≠ (runeError, 1)) :
    appendStringLoop (f + 1) (b :: tl) =
      (if (decodeRune (b :: tl)).1 = 0x2028 ∨ (decodeRune (b :: tl)).1 = 0x2029 then
        [0x5C, 0x75, 0x32, 0x30, 0x32, hexDigit ((decodeRune (b :: tl)).1 % 16)]
       else (b :: tl).take (decodeRune (b :: tl)).2) ++
      appendStringLoop f ((b :: tl).drop (decodeRune (b :: tl)).2) := by
  have h4 : ¬ b < 0x80 := by omega
  have hne : ¬ ((decodeRune (b :: tl)).1 = runeError ∧ (decodeRune (b :: tl)).2 = 1) := by
    intro h
    apply hv
    exact Prod.ext h.1 h.2
  rw [appendStringLoop]
  simp only [if_neg h4, decodeRune_take4, if_neg hne]
  split <;> rfl

theorem unquoteLoop_appendStringLoop (f : Nat) :
    ∀ (s : List Nat), s.length ≤ f → validUTF8 f s = true →
      ∀ (k : Nat) (rest : List Nat), (appendStringLoop f s).length < k →
        unquoteLoop k (appendStringLoop f s ++ 0x22 :: rest) = some (s, rest) := by
  induction f with
  | zero =>
    intro s hs _ k rest hk
    have : s = [] := List.length_eq_zero.1 (by omega)
    subst this
    obtain ⟨k', rfl⟩ : ∃ k', k = k' + 1 := ⟨k - 1, by omega⟩
    exact unquoteLoop_quote k' rest
  | succ f ih =>
    intro s hs hv k rest hk
    obtain ⟨k', rfl⟩ : ∃ k', k = k' + 1 := ⟨k - 1, by omega⟩
    cases s with
    | nil => exact unquoteLoop_quote k' rest
    | cons b tl =>
      obtain ⟨hne, hvt⟩ := validUTF8_cons f b tl hv
      simp only [List.length_cons] at hs
      by_cases hb : b < 0x80
      · rw [decodeRune_ascii b tl hb] at hvt
        simp only [List.drop_succ_cons, List.drop_zero] at hvt
        by_cases hsafe : htmlSafe b = true
        · have e : appendStringLoop (f + 1) (b :: tl) = b :: appendStringLoop f tl := by
            rw [appendStringLoop]
            simp [hb, hsafe]
          rw [e] at hk ⊢
          simp only [List.length_cons] at hk
          have hrec := ih tl (by omega) hvt k' rest (by omega)
          simp only [htmlSafe, decide_eq_true_eq] at hsafe
          exact unquoteLoop_plain k' b _ _ _ (by omega) (by omega) (by omega) hb hrec
        · have e : appendStringLoop (f + 1) (b :: tl) = escapeByte b ++ appendStringLoop f tl := by
            rw [appendStringLoop]
            simp [hb, hsafe]
          rw [e] at hk ⊢
          have hl : 1 ≤ (escapeByte b).length := by
            unfold escapeByte
            split_ifs <;> simp
          simp only [List.length_append] at hk
          have hrec := ih tl (by omega) hvt k' rest (by omega)
          rw [List.append_assoc]
          exact unquoteLoop_escape k' b _ _ _ hb (by simpa using hsafe) hrec
      · have hb' : 0x80 ≤ b := by omega
        have henc := appendStringLoop_rune f b tl hb' hne
        have hm := decodeRune_valid_shape b tl hb' hne
        cases hm with
        | two s1 t h1 h2 h3 h4 =>
          have hd := fun t' => decodeRune_two b s1 t' h1 h2 h3 h4
          obtain ⟨he, hr⟩ := encodeRune_two b s1 h1 h2 h3 h4
          rw [hd] at henc hvt
          rw [if_neg (by omega)] at henc
          simp only [List.take_succ_cons, List.take_zero, List.drop_succ_cons,
            List.drop_zero] at henc hvt
          rw [henc] at hk ⊢
          simp only [List.length_cons, List.length_append, List.length_nil] at hk hs
          have hrec := ih t (by omega) hvt k' rest (by omega)
          exact unquoteLoop_rune k' b 2 _ [s1] _ _ _ hb' (hd _) rfl he hrec
        | three s1 s2 t h1 h2 h3 h4 h5 h6 h7 h8 =>
          have hd := fun t' => decodeRune_three b s1 s2 t' h1 h2 h3 h4 h5 h6 h7 h8
          obtain ⟨he, hr⟩ := encodeRune_three b s1 s2 h1 h2 h3 h4 h5 h6 h7 h8
          rw [hd] at henc hvt
          simp only [List.take_succ_cons, List.take_zero, List.drop_succ_cons,
            List.drop_zero] at henc hvt
          simp only [List.length_cons] at hs
          by_cases hx : b % 16 * 4096 + s1 % 64 * 64 + s2 % 64 = 0x2028 ∨
              b % 16 * 4096 + s1 % 64 * 64 + s2 % 64 = 0x2029
          · rw [if_pos hx] at henc
            rw [henc] at hk ⊢
            simp only [List.length_cons, List.length_append, List.length_nil] at hk
            have hrec := ih t (by omega) hvt k' rest (by omega)
            have hu : getu4 0x32 0x30 0x32
                (hexDigit ((b % 16 * 4096 + s1 % 64 * 64 + s2 % 64) % 16)) =
                some (b % 16 * 4096 + s1 % 64 * 64 + s2 % 64) := by
              rcases hx with e | e <;> rw [e] <;> decide
            have := unquoteLoop_u4 k' _ _ _ _ _ _ _ _ hu hr hrec
            rw [he] at this
            simpa using this
          · rw [if_neg hx] at henc
            rw [henc] at hk ⊢
            simp only [List.length_cons, List.length_append, List.length_nil] at hk
            have hrec := ih t (by omega) hvt k' rest (by omega)
            exact unquoteLoop_rune k' b 3 _ [s1, s2] _ _ _ hb' (hd _) rfl he hrec
        | four s1 s2 s3 t h1 h2 h3 h4 h5 h6 h7 h8 h9 h10 =>
          have hd := fun t' => decodeRune_four b s1 s2 s3 t' h1 h2 h3 h4 h5 h6 h7 h8 h9 h10
          obtain ⟨he, hr⟩ := encodeRune_four b s1 s2 s3 h1 h2 h3 h4 h5 h6 h7 h8 h9 h10
          rw [hd] at henc hvt
          rw [if_neg (by omega)] at henc
          simp only [List.take_succ_cons, List.take_zero, List.drop_succ_cons,
            List.drop_zero] at henc hvt
          rw [henc] at hk ⊢
          simp only [List.length_cons, List.length_append, List.length_nil] at hk hs
          have hrec := ih t (by omega) hvt k' rest (by omega)
          exact unquoteLoop_rune k' b 4 _ [s1, s2, s3] _ _ _ hb' (hd _) rfl he hrec

theorem parseBoolLiteral_formatBool (done : Bool) (rest : List Nat) :
    parseBoolLiteral (formatBool done ++ 0x7D :: rest) = some (done, 0x7D :: rest) := by
  cases done
  · have e : formatBool false ++ 0x7D :: rest = bytes "false" ++ (0x7D :: rest) := rfl
    have n : expectBytes (bytes "true") (bytes "false" ++ (0x7D :: rest)) = none := by
      simp [bytes, encodeRune, expectBytes]
    rw [e, parseBoolLiteral, n]
    simp only [expectBytes_append]
  · have e : formatBool true ++ 0x7D :: rest = bytes "true" ++ (0x7D :: rest) := rfl
    rw [e, parseBoolLiteral]
    simp only [expectBytes_append]

theorem unmarshalRecord_marshalRecord (id : Int) (task : List Nat) (done : Bool)
    (hlo : -9223372036854775808 ≤ id) (hhi : id ≤ 9223372036854775807)
    (hv : Valid task = true) :
    unmarshalRecord (marshalRecord id task done) = some (id, task, done) := by
  have shape : marshalRecord id task done =
      bytes "\x7b\"id\":" ++ (FormatInt id ++ 44 :: (bytes "\"task\":\"" ++
        (appendStringLoop task.length task ++ 0x22 :: (bytes ",\"done\":" ++
          (formatBool done ++ 0x7D :: []))))) := by
    simp [marshalRecord, appendString, bytes, encodeRune]
  have h1 := parseIntLiteral_formatInt id hlo hhi (bytes "\"task\":\"" ++
        (appendStringLoop task.length task ++ 0x22 :: (bytes ",\"done\":" ++
          (formatBool done ++ 0x7D :: []))))
  have h2 : expectBytes (bytes ",\"task\":\"") (44 :: (bytes "\"task\":\"" ++
        (appendStringLoop task.length task ++ 0x22 :: (bytes ",\"done\":" ++
          (formatBool done ++ 0x7D :: []))))) =
      some (appendStringLoop task.length task ++ 0x22 :: (bytes ",\"done\":" ++
          (formatBool done ++ 0x7D :: []))) := by
    have e : (44 :: (bytes "\"task\":\"" ++
        (appendStringLoop task.length task ++ 0x22 :: (bytes ",\"done\":" ++
          (formatBool done ++ 0x7D :: []))))) = bytes ",\"task\":\"" ++
        (appendStringLoop task.length task ++ 0x22 :: (bytes ",\"done\":" ++
          (formatBool done ++ 0x7D :: []))) := rfl
    rw [e, expectBytes_append]
  have h3 := unquoteLoop_appendStringLoop task.length task (le_refl _) hv
    (appendStringLoop task.length task ++ 0x22 :: (bytes ",\"done\":" ++
          (formatBool done ++ 0x7D :: []))).length (bytes ",\"done\":" ++
          (formatBool done ++ 0x7D :: [])) (by simp)
  have h4 := parseBoolLiteral_formatBool done []
  have h5 : expectBytes (bytes "\x7d") (0x7D :: []) = some [] := by decide
  rw [shape]
  unfold unmarshalRecord
  simp only [expectBytes_append, h1, h2, h3, h4, h5, Option.bind_eq_bind, Option.some_bind,
    Option.bind_some, if_true]

theorem coerceLoop_valid (f : Nat) :
    ∀ (s : List Nat), s.length ≤ f → validUTF8 f s = true → coerceLoop f s = s := by
  induction f with
  | zero =>
    intro s hs _
    have : s = [] := List.length_eq_zero.1 (by omega)
    subst this
    rfl
  | succ f ih =>
    intro s hs hv
    cases s with
    | nil => rfl
    | cons b tl =>
      obtain ⟨hne, hvt⟩ := validUTF8_cons f b tl hv
      have hnot : ¬ ((decodeRune (b :: tl)).1 = runeError ∧ (decodeRune (b :: tl)).2 = 1) :=
        fun h => hne (Prod.ext h.1 h.2)
      have hlen : ((b :: tl).drop (decodeRune (b :: tl)).2).length ≤ f := by
        by_cases hb : b < 0x80
        · rw [decodeRune_ascii b tl hb]
          simp only [List.length_cons] at hs
          simp only [List.drop_succ_cons, List.drop_zero]
          omega
        · have hm := decodeRune_valid_shape b tl (by omega) hne
          simp only [List.length_cons] at hs
          cases hm with
          | two s1 t h1 h2 h3 h4 =>
            rw [decodeRune_two b s1 t h1 h2 h3 h4]
            simp only [List.drop_succ_cons, List.drop_zero, List.length_cons] at hs ⊢
            omega
          | three s1 s2 t h1 h2 h3 h4 h5 h6 h7 h8 =>
            rw [decodeRune_three b s1 s2 t h1 h2 h3 h4 h5 h6 h7 h8]
            simp only [List.drop_succ_cons, List.drop_zero, List.length_cons] at hs ⊢
            omega
          | four s1 s2 s3 t h1 h2 h3 h4 h5 h6 h7 h8 h9 h10 =>
            rw [decodeRune_four b s1 s2 s3 t h1 h2 h3 h4 h5 h6 h7 h8 h9 h10]
            simp only [List.drop_succ_cons, List.drop_zero, List.length_cons] at hs ⊢
            omega
      rw [coerceLoop]
      simp only [if_neg hnot]
      rw [ih _ hlen hvt]
      exact List.take_append_drop _ _

theorem coerceUTF8_valid (s : List Nat) (hv : Valid s = true) : coerceUTF8 s = s :=
  coerceLoop_valid s.length s (le_refl _) hv

theorem unquoteLoop_appendStringLoop_coerce (f : Nat) :
    ∀ (s : List Nat), s.length ≤ f →
      ∀ (k : Nat) (rest : List Nat), (appendStringLoop f s).length < k →
        unquoteLoop k (appendStringLoop f s ++ 0x22 :: rest) = some (coerceLoop f s, rest) := by
  induction f with
  | zero =>
    intro s hs k rest hk
    have : s = [] := List.length_eq_zero.1 (by omega)
    subst this
    obtain ⟨k', rfl⟩ : ∃ k', k = k' + 1 := ⟨k - 1, by omega⟩
    exact unquoteLoop_quote k' rest
  | succ f ih =>
    intro s hs k rest hk
    obtain ⟨k', rfl⟩ : ∃ k', k = k' + 1 := ⟨k - 1, by omega⟩
    cases s with
    | nil => exact unquoteLoop_quote k' rest
    | cons b tl =>
      simp only [List.length_cons] at hs
      by_cases hb : b < 0x80
      · have hd := decodeRune_ascii b tl hb
        have hco : coerceLoop (f + 1) (b :: tl) = b :: coerceLoop f tl := by
          rw [coerceLoop]
          simp only [hd]
          rw [if_neg (by unfold runeError; omega)]
          rfl
        rw [hco]
        by_cases hsafe : htmlSafe b = true
        · have e : appendStringLoop (f + 1) (b :: tl) = b :: appendStringLoop f tl := by
            rw [appendStringLoop]
            simp [hb, hsafe]
          rw [e] at hk ⊢
          simp only [List.length_cons] at hk
          have hrec := ih tl (by omega) k' rest (by omega)
          simp only [htmlSafe, decide_eq_true_eq] at hsafe
          exact unquoteLoop_plain k' b _ _ _ (by omega) (by omega) (by omega) hb hrec
        · have e : appendStringLoop (f + 1) (b :: tl) = escapeByte b ++ appendStringLoop f tl := by
            rw [appendStringLoop]
            simp [hb, hsafe]
          rw [e] at hk ⊢
          have hl : 1 ≤ (escapeByte b).length := by
            unfold escapeByte
            split_ifs <;> simp
          simp only [List.length_append] at hk
          have hrec := ih tl (by omega) k' rest (by omega)
          rw [List.append_assoc]
          exact unquoteLoop_escape k' b _ _ _ hb (by simpa using hsafe) hrec
      · have hb' : 0x80 ≤ b := by omega
        by_cases hne : decodeRune (b :: tl) = (runeError, 1)
        · have hco : coerceLoop (f + 1) (b :: tl) = encodeRune runeError ++ coerceLoop f tl := by
            rw [coerceLoop]
            simp only [hne]
            simp
          have e : appendStringLoop (f + 1) (b :: tl) =
              [0x5C, 0x75, 0x66, 0x66, 0x66, 0x64] ++ appendStringLoop f tl := by
            rw [appendStringLoop]
            simp only [if_neg hb, decodeRune_take4, hne]
            simp
          rw [e] at hk ⊢
          rw [hco]
          simp only [List.length_cons, List.length_append, List.length_nil] at hk
          have hrec := ih tl (by omega) k' rest (by omega)
          have hu : getu4 0x66 0x66 0x66 0x64 = some runeError := by decide
          have := unquoteLoop_u4 k' _ _ _ _ _ _ _ _ hu (by decide) hrec
          simpa using this
        have henc := appendStringLoop_rune f b tl hb' hne
        have hnot : ¬ ((decodeRune (b :: tl)).1 = runeError ∧ (decodeRune (b :: tl)).2 = 1) :=
          fun h => hne (Prod.ext h.1 h.2)
        have hco : coerceLoop (f + 1) (b :: tl) =
            (b :: tl).take (decodeRune (b :: tl)).2 ++
              coerceLoop f ((b :: tl).drop (decodeRune (b :: tl)).2) := by
          rw [coerceLoop]
          simp only [if_neg hnot]
        have hm := decodeRune_valid_shape b tl hb' hne
        cases hm with
        | two s1 t h1 h2 h3 h4 =>
          have hd := fun t' => decodeRune_two b s1 t' h1 h2 h3 h4
          obtain ⟨he, hr⟩ := encodeRune_two b s1 h1 h2 h3 h4
          rw [hd] at henc hco
          rw [if_neg (by omega)] at henc
          simp only [List.take_succ_cons, List.take_zero, List.drop_succ_cons,
            List.drop_zero] at henc hco
          rw [henc] at hk ⊢
          rw [hco]
          simp only [List.length_cons, List.length_append, List.length_nil] at hk hs
          have hrec := ih t (by omega) k' rest (by omega)
          exact unquoteLoop_rune k' b 2 _ [s1] _ _ _ hb' (hd _) rfl he hrec
        | three s1 s2 t h1 h2 h3 h4 h5 h6 h7 h8 =>
          have hd := fun t' => decodeRune_three b s1 s2 t' h1 h2 h3 h4 h5 h6 h7 h8
          obtain ⟨he, hr⟩ := encodeRune_three b s1 s2 h1 h2 h3 h4 h5 h6 h7 h8
          rw [hd] at henc hco
          simp only [List.take_succ_cons, List.take_zero, List.drop_succ_cons,
            List.drop_zero] at henc hco
          simp only [List.length_cons] at hs
          rw [hco]
          by_cases hx : b % 16 * 4096 + s1 % 64 * 64 + s2 % 64 = 0x2028 ∨
              b % 16 * 4096 + s1 % 64 * 64 + s2 % 64 = 0x2029
          · rw [if_pos hx] at henc
            rw [henc] at hk ⊢
            simp only [List.length_cons, List.length_append, List.length_nil] at hk
            have hrec := ih t (by omega) k' rest (by omega)
            have hu : getu4 0x32 0x30 0x32
                (hexDigit ((b % 16 * 4096 + s1 % 64 * 64 + s2 % 64) % 16)) =
                some (b % 16 * 4096 + s1 % 64 * 64 + s2 % 64) := by
              rcases hx with e | e <;> rw [e] <;> decide
            have := unquoteLoop_u4 k' _ _ _ _ _ _ _ _ hu hr hrec
            rw [he] at this
            simpa using this
          · rw [if_neg hx] at henc
            rw [henc] at hk ⊢
            simp only [List.length_cons, List.length_append, List.length_nil] at hk
            have hrec := ih t (by omega) k' rest (by omega)
            exact unquoteLoop_rune k' b 3 _ [s1, s2] _ _ _ hb' (hd _) rfl he hrec
        | four s1 s2 s3 t h1 h2 h3 h4 h5 h6 h7 h8 h9 h10 =>
          have hd := fun t' => decodeRune_four b s1 s2 s3 t' h1 h2 h3 h4 h5 h6 h7 h8 h9 h10
          obtain ⟨he, hr⟩ := encodeRune_four b s1 s2 s3 h1 h2 h3 h4 h5 h6 h7 h8 h9 h10
          rw [hd] at henc hco
          rw [if_neg (by omega)] at henc
          simp only [List.take_succ_cons, List.take_zero, List.drop_succ_cons,
            List.drop_zero] at henc hco
          rw [henc] at hk ⊢
          rw [hco]
          simp only [List.length_cons, List.length_append, List.length_nil] at hk hs
          have hrec := ih t (by omega) k' rest (by omega)
          exact unquoteLoop_rune k' b 4 _ [s1, s2, s3] _ _ _ hb' (hd _) rfl he hrec

theorem unmarshalRecord_marshalRecord_coerce (id : Int) (task : List Nat) (done : Bool)
    (hlo : -9223372036854775808 ≤ id) (hhi : id ≤ 9223372036854775807) :
    unmarshalRecord (marshalRecord id task done) = some (id, coerceUTF8 task, done) := by
  have shape : marshalRecord id task done =
      bytes "\x7b\"id\":" ++ (FormatInt id ++ 44 :: (bytes "\"task\":\"" ++
        (appendStringLoop task.length task ++ 0x22 :: (bytes ",\"done\":" ++
          (formatBool done ++ 0x7D :: []))))) := by
    simp [marshalRecord, appendString, bytes, encodeRune]
  have h1 := parseIntLiteral_formatInt id hlo hhi (bytes "\"task\":\"" ++
        (appendStringLoop task.length task ++ 0x22 :: (bytes ",\"done\":" ++
          (formatBool done ++ 0x7D :: []))))
  have h2 : expectBytes (bytes ",\"task\":\"") (44 :: (bytes "\"task\":\"" ++
        (appendStringLoop task.length task ++ 0x22 :: (bytes ",\"done\":" ++
          (formatBool done ++ 0x7D :: []))))) =
      some (appendStringLoop task.length task ++ 0x22 :: (bytes ",\"done\":" ++
          (formatBool done ++ 0x7D :: []))) := by
    have e : (44 :: (bytes "\"task\":\"" ++
        (appendStringLoop task.length task ++ 0x22 :: (bytes ",\"done\":" ++
          (formatBool done ++ 0x7D :: []))))) = bytes ",\"task\":\"" ++
        (appendStringLoop task.length task ++ 0x22 :: (bytes ",\"done\":" ++
          (formatBool done ++ 0x7D :: []))) := rfl
    rw [e, expectBytes_append]
  have h3 := unquoteLoop_appendStringLoop_coerce task.length task (le_refl _)
    (appendStringLoop task.length task ++ 0x22 :: (bytes ",\"done\":" ++
          (formatBool done ++ 0x7D :: []))).length (bytes ",\"done\":" ++
          (formatBool done ++ 0x7D :: [])) (by simp)
  have h4 := parseBoolLiteral_formatBool done []
  have h5 : expectBytes (bytes "\x7d") (0x7D :: []) = some [] := by decide
  rw [shape]
  unfold unmarshalRecord
  simp only [expectBytes_append, h1, h2, h3, h4, h5, Option.bind_eq_bind, Option.some_bind,
    Option.bind_some, if_true]
  rfl

end JsonCodec

section CacheDuration

open Go ImageService

theorem getCacheDuration_default (env : List Nat)
    (h : env = [] ∨ (∃ e, Atoi env = .error e) ∨ (∃ m, Atoi env = .ok m ∧ m ≤ 0)) :
    (getCacheDuration env).ns = 10 * minute := by
  have hd : (Duration.ofInt64 (10 * minute)).ns = 10 * minute := by decide
  unfold getCacheDuration
  by_cases h0 : env = []
  · rw [if_pos h0]
    exact hd
  · rw [if_neg h0]
    rcases h with h | ⟨e, h⟩ | ⟨m, h, hm⟩
    · exact absurd h h0
    · rw [h]
      exact hd
    · rw [h]
      simp only [if_pos hm]
      exact hd

theorem getCacheDuration_within_int64 (n : Nat) (h1 : 0 < n) (h2 : n ≤ 153722867) :
    (getCacheDuration (FormatInt n)).ns = n * minute := by
  have hp := parseInt_formatInt (n : Int) (by omega) (by omega)
  have hne : FormatInt (n : Int) ≠ [] := by
    unfold FormatInt
    rw [if_neg (by omega)]
    exact formatUint_ne_nil _
  unfold getCacheDuration
  rw [if_neg hne]
  unfold Atoi
  rw [hp]
  simp only
  rw [if_neg (by omega)]
  unfold Duration.ofInt64 wrapInt64 minute
  simp only
  omega

end CacheDuration

section EventConsumer

open Broadcaster

theorem bindHandler_not_forward (webhookURL mode : List Nat)
    (h : mode ≠ Go.bytes "forward") : bindHandler webhookURL mode = logOnlyHandler := by
  unfold bindHandler
  by_cases h0 : mode = []
  · subst h0
    simp only [if_true]
    rw [if_neg (by decide)]
  · simp only [if_neg h0]
    rw [if_neg h]

theorem deliver_main_cases (unmarshal : List Nat → Except String Broadcaster.Todo)
    (st : Startup) (subject : String) (data : List Nat) (o : Broadcaster.Outside) :
    deliver (main unmarshal st) subject data o = [] ∨
    (subject = "todo.created" ∧ deliver (main unmarshal st) subject data o =
      subscriptionCallback unmarshal (bindHandler st.webhookURL st.mode) "Todo Created"
        data o) ∨
    (subject = "todo.updated" ∧ deliver (main unmarshal st) subject data o =
      subscriptionCallback unmarshal (bindHandler st.webhookURL st.mode) "Todo Updated"
        data o) := by
  unfold main
  split
  · exact Or.inl rfl
  · split
    · exact Or.inl rfl
    · simp only
      split
      · exact Or.inl rfl
      · split
        · exact Or.inl rfl
        · by_cases h1 : subject = "todo.created"
          · subst h1
            refine Or.inr (Or.inl ⟨rfl, ?_⟩)
            simp [deliver]
          · by_cases h2 : subject = "todo.updated"
            · subst h2
              refine Or.inr (Or.inr ⟨rfl, ?_⟩)
              simp [deliver]
            · refine Or.inl ?_
              simp [deliver, Ne.symm h1, Ne.symm h2]

/-- C6 (mode selector). For every value of `MODE` other than `forward`
(unset, empty or unrecognised) the handler `main` binds is the log-only
handler; that handler makes no call of `sendDiscordEmbed` and no webhook
request, whatever the event label and the record, and so does a broadcaster
started with such a mode, whatever message it is delivered; the forwarding
handler is bound if and only if `MODE` is `forward`. -/
theorem bindHandler_log_only_unless_forward (webhookURL : List Nat) (mode : List Nat) :
    (mode ≠ Go.bytes "forward" →
      bindHandler webhookURL mode = logOnlyHandler ∧
      (∀ (event : String) (todo : Broadcaster.Todo) (o : Broadcaster.Outside),
        discordCalls (bindHandler webhookURL mode event todo o) = [] ∧
        webhookRequests (bindHandler webhookURL mode event todo o) = []) ∧
      (∀ (unmarshal : List Nat → Except String Broadcaster.Todo) (st : Startup)
        (subject : String) (data : List Nat) (o : Broadcaster.Outside),
        st.mode = mode →
        discordCalls (deliver (main unmarshal st) subject data o) = [] ∧
        webhookRequests (deliver (main unmarshal st) subject data o) = [])) ∧
    (bindHandler webhookURL mode = forwardHandler webhookURL ↔ mode = Go.bytes "forward") := by
  have hlog : ∀ (wh m : List Nat), m ≠ Go.bytes "forward" →
      ∀ (unmarshal : List Nat → Except String Broadcaster.Todo) (event : String)
        (data : List Nat) (o : Broadcaster.Outside),
        discordCalls (subscriptionCallback unmarshal (bindHandler wh m) event data o) = [] ∧
        webhookRequests (subscriptionCallback unmarshal (bindHandler wh m) event data o) = [] := by
    intro wh m hm unmarshal event data o
    rw [bindHandler_not_forward wh m hm]
    unfold subscriptionCallback
    split <;> exact ⟨rfl, rfl⟩
  refine ⟨fun h => ⟨bindHandler_not_forward webhookURL mode h, ?_, ?_⟩, ?_⟩
  · intro event todo o
    rw [bindHandler_not_forward webhookURL mode h]
    exact ⟨rfl, rfl⟩
  · intro unmarshal st subject data o hst
    subst hst
    rcases deliver_main_cases unmarshal st subject data o with e | ⟨_, e⟩ | ⟨_, e⟩
    · rw [e]; exact ⟨rfl, rfl⟩
    · rw [e]; exact hlog _ _ h _ _ _ _
    · rw [e]; exact hlog _ _ h _ _ _ _
  · constructor
    · intro hb
      by_contra hne
      rw [bindHandler_not_forward webhookURL mode hne] at hb
      have := congrFun (congrFun (congrFun hb "") ⟨0, [], false⟩) ⟨0, none⟩
      simp [logOnlyHandler, forwardHandler, sendDiscordEmbed] at this
    · intro hm
      subst hm
      unfold bindHandler
      rw [if_pos (by decide)]

/-- Witness for C6: `MODE` unset, `MODE=log-only` and the unrecognised
`MODE=Forward`, each delivered the scenario's message. -/
theorem bindHandler_log_only_unless_forward_witness :
    (bindHandler (Go.bytes "https://discord.com/api/webhooks/1/x") [] = logOnlyHandler) ∧
    (discordCalls (bindHandler (Go.bytes "https://discord.com/api/webhooks/1/x")
        (Go.bytes "log-only") "Todo Created" ⟨1, Go.bytes "buy milk", false⟩ ⟨0, none⟩) = [] ∧
      webhookRequests (bindHandler (Go.bytes "https://discord.com/api/webhooks/1/x")
        (Go.bytes "log-only") "Todo Created" ⟨1, Go.bytes "buy milk", false⟩ ⟨0, none⟩) = []) ∧
    (discordCalls (deliver (main jsonUnmarshal (startupWith (Go.bytes "Forward")))
        "todo.created" sampleMessage ⟨0, none⟩) = [] ∧
      webhookRequests (deliver (main jsonUnmarshal (startupWith (Go.bytes "Forward")))
        "todo.created" sampleMessage ⟨0, none⟩) = []) :=
  ⟨((bindHandler_log_only_unless_forward (Go.bytes "https://discord.com/api/webhooks/1/x")
      []).1 (by decide)).1,
    ((bindHandler_log_only_unless_forward (Go.bytes "https://discord.com/api/webhooks/1/x")
      (Go.bytes "log-only")).1 (by decide)).2.1 "Todo Created" ⟨1, Go.bytes "buy milk", false⟩
      ⟨0, none⟩,
    ((bindHandler_log_only_unless_forward (Go.bytes "https://discord.com/api/webhooks/1/x")
      (Go.bytes "Forward")).1 (by decide)).2.2 jsonUnmarshal (startupWith (Go.bytes "Forward"))
      "todo.created" sampleMessage ⟨0, none⟩ rfl⟩

/-- C8 (malformed messages are dropped). When `json.Unmarshal` returns an
error for the payload, the subscription callback returns without any effect:
the bound handler is not called, whichever handler is bound (forwarding or
log-only), and therefore no `sendDiscordEmbed` call and no webhook request is
made; the same holds for a started broadcaster delivered that payload on
either subject. -/
theorem malformed_message_dropped (unmarshal : List Nat → Except String Broadcaster.Todo)
    (data : List Nat) (e : String) (herr : unmarshal data = .error e) :
    (∀ (handleEvent : String → Broadcaster.Todo → Broadcaster.Outside → List Broadcaster.Effect)
      (event : String) (o : Broadcaster.Outside),
      subscriptionCallback unmarshal handleEvent event data o = []) ∧
    (∀ (st : Startup) (subject : String) (o : Broadcaster.Outside),
      deliver (main unmarshal st) subject data o = [] ∧
      handlerCalls (deliver (main unmarshal st) subject data o) = [] ∧
      discordCalls (deliver (main unmarshal st) subject data o) = [] ∧
      webhookRequests (deliver (main unmarshal st) subject data o) = []) := by
  have hcb : ∀ (handleEvent : String → Broadcaster.Todo → Broadcaster.Outside →
      List Broadcaster.Effect) (event : String) (o : Broadcaster.Outside),
      subscriptionCallback unmarshal handleEvent event data o = [] := by
    intro handleEvent event o
    unfold subscriptionCallback
    rw [herr]
  refine ⟨hcb, ?_⟩
  intro st subject o
  have hd : deliver (main unmarshal st) subject data o = [] := by
    rcases deliver_main_cases unmarshal st subject data o with h | ⟨_, h⟩ | ⟨_, h⟩
    · exact h
    · rw [h]; exact hcb _ _ _
    · rw [h]; exact hcb _ _ _
  rw [hd]
  exact ⟨rfl, rfl, rfl, rfl⟩

/-- Witness for C8: a truncated payload delivered to a forwarding broadcaster. -/
theorem malformed_message_dropped_witness :
    (∀ (handleEvent : String → Broadcaster.Todo → Broadcaster.Outside → List Broadcaster.Effect)
      (event : String) (o : Broadcaster.Outside),
      subscriptionCallback jsonUnmarshal handleEvent event
        (Go.bytes "\x7b\"id\":1,\"task\":\"buy") o = []) ∧
    (∀ (st : Startup) (subject : String) (o : Broadcaster.Outside),
      deliver (main jsonUnmarshal st) subject (Go.bytes "\x7b\"id\":1,\"task\":\"buy") o = [] ∧
      handlerCalls (deliver (main jsonUnmarshal st) subject
        (Go.bytes "\x7b\"id\":1,\"task\":\"buy") o) = [] ∧
      discordCalls (deliver (main jsonUnmarshal st) subject
        (Go.bytes "\x7b\"id\":1,\"task\":\"buy") o) = [] ∧
      webhookRequests (deliver (main jsonUnmarshal st) subject
        (Go.bytes "\x7b\"id\":1,\"task\":\"buy") o) = []) :=
  malformed_message_dropped jsonUnmarshal (Go.bytes "\x7b\"id\":1,\"task\":\"buy")
    "json: cannot unmarshal" (by decide)

theorem discordCalls_forward (unmarshal : List Nat → Except String Broadcaster.Todo)
    (st : Startup) (hst : st.forwarding) (subject : String)
    (hsubject : subject = "todo.created" ∨ subject = "todo.updated")
    (data : List Nat) (todo : Broadcaster.Todo) (o : Broadcaster.Outside)
    (hdata : unmarshal data = .ok todo) :
    ∃ embed, discordCalls (deliver (main unmarshal st) subject data o) = [embed] ∧
      embed.Fields = fieldsOf todo.ID todo.Task todo.Done := by
  obtain ⟨h1, h2, h3, h4, h5, h6⟩ := hst
  have hb : bindHandler st.webhookURL st.mode = forwardHandler st.webhookURL := by
    rw [h3]
    unfold bindHandler
    rw [if_pos (by decide)]
  have hcb : ∀ event, ∃ embed,
      discordCalls (subscriptionCallback unmarshal (bindHandler st.webhookURL st.mode) event
        data o) = [embed] ∧ embed.Fields = fieldsOf todo.ID todo.Task todo.Done := by
    intro event
    rw [hb]
    unfold subscriptionCallback
    rw [hdata]
    simp only [forwardHandler, sendDiscordEmbed]
    cases o.marshalErr <;> exact ⟨_, rfl, rfl⟩
  have hmain : main unmarshal st =
      [⟨"todo.created", "broadcaster",
          subscriptionCallback unmarshal (bindHandler st.webhookURL st.mode) "Todo Created"⟩,
        ⟨"todo.updated", "broadcaster",
          subscriptionCallback unmarshal (bindHandler st.webhookURL st.mode) "Todo Updated"⟩] := by
    unfold main
    simp [h1, h2, h4, h5, h6]
  rw [hmain]
  rcases hsubject with rfl | rfl
  · have e : deliver
        [⟨"todo.created", "broadcaster",
          subscriptionCallback unmarshal (bindHandler st.webhookURL st.mode) "Todo Created"⟩,
        ⟨"todo.updated", "broadcaster",
          subscriptionCallback unmarshal (bindHandler st.webhookURL st.mode) "Todo Updated"⟩]
        "todo.created" data o =
        subscriptionCallback unmarshal (bindHandler st.webhookURL st.mode) "Todo Created"
          data o := by
      simp [deliver]
    rw [e]
    exact hcb _
  · have e : deliver
        [⟨"todo.created", "broadcaster",
          subscriptionCallback unmarshal (bindHandler st.webhookURL st.mode) "Todo Created"⟩,
        ⟨"todo.updated", "broadcaster",
          subscriptionCallback unmarshal (bindHandler st.webhookURL st.mode) "Todo Updated"⟩]
        "todo.updated" data o =
        subscriptionCallback unmarshal (bindHandler st.webhookURL st.mode) "Todo Updated"
          data o := by
      simp [deliver]
    rw [e]
    exact hcb _

/-- Counterexample to C5 as stated: the record `{id: 1, description: the
single byte 0xFF, done: false}`. The payload the publisher produces for it is
`{"id":1,"task":"\ufffd","done":false}`; delivered to a forwarding
broadcaster it deserializes without error and gives exactly one call of
`sendDiscordEmbed`, whose `Task` field is the three bytes of U+FFFD, not the
record's description. -/
theorem invalid_utf8_description_not_preserved :
    TodoService.publishes
      (TodoService.sendNatsMessage "todo.created" ⟨1, [0xFF], false⟩ TodoService.workingBus) =
      [("todo.created", Go.bytes "\x7b\"id\":1,\"task\":\"\\ufffd\",\"done\":false\x7d")] ∧
    jsonUnmarshal (Go.bytes "\x7b\"id\":1,\"task\":\"\\ufffd\",\"done\":false\x7d") =
      .ok ⟨1, [0xEF, 0xBF, 0xBD], false⟩ ∧
    (discordCalls (deliver (main jsonUnmarshal (startupWith (Go.bytes "forward")))
      "todo.created" (Go.bytes "\x7b\"id\":1,\"task\":\"\\ufffd\",\"done\":false\x7d")
      ⟨0, none⟩)).map (fun e => e.Fields) =
      [[⟨"ID", Go.bytes "1", true⟩, ⟨"Task", [0xEF, 0xBF, 0xBD], true⟩,
        ⟨"Done", Go.bytes "false", true⟩]] ∧
    ([0xEF, 0xBF, 0xBD] : List Nat) ≠ [0xFF] := by
  decide

/-- C5, as the code has it. For every Task Record `r` whose id is a Go `int`,
with any description and any completion flag, on either subject the
publisher uses: whatever `sendNatsMessage` publishes for `r` is
`json.Marshal(r)` on that subject, and it does publish it once when the bus
works; that payload deserializes without error, into the record with the same
id and completion flag and with the description coerced to valid UTF-8 as
`json.Marshal` does (every byte that is not part of a valid encoding replaced
by U+FFFD); delivered to a broadcaster bound in forward mode it results in
exactly one call of `sendDiscordEmbed`, whose embed fields are `ID` = the
decimal text of `r.ID`, `Task` = that coerced description and `Done` = the
text of `r.Done`; and the coerced description is `r.Task` unchanged whenever
`r.Task` is valid UTF-8. -/
theorem published_record_forwarded (r : TodoService.Todo) (subject : String)
    (bus : TodoService.Bus) (st : Startup) (o : Broadcaster.Outside)
    (hid : -9223372036854775808 ≤ r.ID ∧ r.ID ≤ 9223372036854775807)
    (hsubject : subject = "todo.created" ∨ subject = "todo.updated")
    (hmarshal : bus.marshal = fun t => .ok (TodoService.jsonMarshal t))
    (hst : st.forwarding) :
    (∀ p ∈ TodoService.publishes (TodoService.sendNatsMessage subject r bus),
      p = (subject, TodoService.jsonMarshal r)) ∧
    (bus.natsURL ≠ [] → bus.connectErr = none →
      TodoService.publishes (TodoService.sendNatsMessage subject r bus) =
        [(subject, TodoService.jsonMarshal r)]) ∧
    jsonUnmarshal (TodoService.jsonMarshal r) = .ok ⟨r.ID, Go.coerceUTF8 r.Task, r.Done⟩ ∧
    (∃ embed,
      discordCalls (deliver (main jsonUnmarshal st) subject (TodoService.jsonMarshal r) o) =
        [embed] ∧
      embed.Fields =
        [⟨"ID", Go.FormatInt r.ID, true⟩, ⟨"Task", Go.coerceUTF8 r.Task, true⟩,
          ⟨"Done", Go.formatBool r.Done, true⟩]) ∧
    (Go.Valid r.Task = true → Go.coerceUTF8 r.Task = r.Task) := by
  have hrt : jsonUnmarshal (TodoService.jsonMarshal r) =
      .ok ⟨r.ID, Go.coerceUTF8 r.Task, r.Done⟩ := by
    unfold jsonUnmarshal TodoService.jsonMarshal
    rw [unmarshalRecord_marshalRecord_coerce r.ID r.Task r.Done hid.1 hid.2]
  refine ⟨?_, ?_, hrt, ?_, coerceUTF8_valid r.Task⟩
  · intro p hp
    unfold TodoService.sendNatsMessage at hp
    rw [hmarshal] at hp
    by_cases h0 : bus.natsURL = []
    · simp [h0, TodoService.publishes] at hp
    · cases hc : bus.connectErr with
      | some e => simp [h0, hc, TodoService.publishes] at hp
      | none =>
        simp [h0, hc, TodoService.publishes] at hp
        exact hp
  · intro h0 hc
    unfold TodoService.sendNatsMessage
    rw [hmarshal]
    simp [h0, hc, TodoService.publishes]
  · exact discordCalls_forward jsonUnmarshal st hst subject hsubject _
      ⟨r.ID, Go.coerceUTF8 r.Task, r.Done⟩ o hrt

/-- Witness for C5 as amended. The scenario of the specification: the record
`{id: 1, description: "buy milk", done: false}` published on `todo.created`
gives a notification with the fields `ID=1`, `Task=buy milk`, `Done=false`;
and the record whose description is `a`, the byte 0xFF, `b` gives one
notification whose `Task` is `a`, U+FFFD, `b`. -/
theorem published_record_forwarded_witness :
    (TodoService.publishes
      (TodoService.sendNatsMessage "todo.created" ⟨1, Go.bytes "buy milk", false⟩
        TodoService.workingBus) =
      [("todo.created", sampleMessage)]) ∧
    (∃ embed,
      discordCalls (deliver (main jsonUnmarshal (startupWith (Go.bytes "forward")))
        "todo.created" sampleMessage ⟨0, none⟩) = [embed] ∧
      embed.Fields =
        [⟨"ID", Go.bytes "1", true⟩, ⟨"Task", Go.bytes "buy milk", true⟩,
          ⟨"Done", Go.bytes "false", true⟩]) ∧
    (Go.coerceUTF8 (Go.bytes "buy milk") = Go.bytes "buy milk") ∧
    (∃ embed,
      discordCalls (deliver (main jsonUnmarshal (startupWith (Go.bytes "forward")))
        "todo.updated" (TodoService.jsonMarshal ⟨7, [97, 255, 98], true⟩) ⟨0, none⟩) =
        [embed] ∧
      embed.Fields =
        [⟨"ID", Go.bytes "7", true⟩, ⟨"Task", [97, 0xEF, 0xBF, 0xBD, 98], true⟩,
          ⟨"Done", Go.bytes "true", true⟩]) :=
  ⟨(published_record_forwarded ⟨1, Go.bytes "buy milk", false⟩ "todo.created"
      TodoService.workingBus (startupWith (Go.bytes "forward")) ⟨0, none⟩
      (by decide) (Or.inl rfl) rfl (by decide)).2.1 (by decide) rfl,
    (published_record_forwarded ⟨1, Go.bytes "buy milk", false⟩ "todo.created"
      TodoService.workingBus (startupWith (Go.bytes "forward")) ⟨0, none⟩
      (by decide) (Or.inl rfl) rfl (by decide)).2.2.2.1,
    (published_record_forwarded ⟨1, Go.bytes "buy milk", false⟩ "todo.created"
      TodoService.workingBus (startupWith (Go.bytes "forward")) ⟨0, none⟩
      (by decide) (Or.inl rfl) rfl (by decide)).2.2.2.2 (by decide),
    (published_record_forwarded ⟨7, [97, 255, 98], true⟩ "todo.updated"
      TodoService.workingBus (startupWith (Go.bytes "forward")) ⟨0, none⟩
      (by decide) (Or.inr rfl) rfl (by decide)).2.2.2.1⟩

end EventConsumer
